import Mathlib

/-!
# one-api-go, package `ai`: decoder, content extraction, validation, builders, transport

A shallow embedding of `src/ai/stream.go` (`StreamReader.Recv`, `StreamReader.Close`),
of `src/ai/utils.go` (`ExtractContent`, `join`, `ToolBuilder`), of `src/ai/errors.go` (the
error texts and `ValidateRequest`), of `src/ai/message.go` (`MessageBuilder`) and of
`src/ai/client.go` and `src/ai/http.go` (`NewClient`, `SetConfig`, `GetConfig`,
`ChatCompletion`, `ChatCompletionStream`, `doChatRequest`, `doChatStreamRequest`,
`setHeaders`), with the data types of `src/ai/types.go` and `src/ai/config.go` they use.

Conventions.
* A Go `error` is a value of `GoError`; a Go `(T, error)` result is a pair of options.
* A Go `interface{}` value is a `GoValue` (dynamic type and value).
* Library code that is not part of the repository (`encoding/json`, `net/http`, `fmt` verbs
  applied to arbitrary values, the dynamic type behind an `io.ReadCloser`) enters as a
  parameter.
* A call that touches the network returns, next to its Go result, the list of its network
  events.
* `bufio.Scanner` is represented by the tokens it is going to deliver and the error it
  stops with; `NewScanner` gives them for the lines of a body, with the 64 KiB limit on a
  line that `bufio.NewScanner` keeps.
-/

set_option autoImplicit false

namespace ai

/-! ## Go values -/

/-- Go `float64` values as far as comparison goes: not-a-number, the two infinities, and the
finite values, each standing for the rational number it denotes (the two zeros are one). -/
inductive Float64 where
  | nan
  | negInf
  | posInf
  | fin (q : Rat)
  deriving DecidableEq, Repr

/-- The Go comparison `x < y` on `float64`: false as soon as an operand is not a number. -/
def Float64.lt : Float64 → Float64 → Bool
  | Float64.nan, _ => false
  | _, Float64.nan => false
  | Float64.negInf, Float64.negInf => false
  | Float64.negInf, _ => true
  | _, Float64.negInf => false
  | Float64.posInf, _ => false
  | Float64.fin _, Float64.posInf => true
  | Float64.fin a, Float64.fin b => decide (a < b)

/-- The struct `APIError` of `errors.go` (field `Type` is spelled `Typ`). -/
structure APIError where
  Code : Int
  Message : String
  Typ : String
  deriving DecidableEq, Repr

/-- The struct `ValidationError` of `errors.go`. -/
structure ValidationError where
  Field : String
  Message : String
  deriving DecidableEq, Repr

/-- Go `error` values, up to what the package distinguishes: the sentinel `io.EOF`, an error
of the package type `*ValidationError` or `*APIError`, any other error value (such as one
made by `fmt.Errorf` without `%w`), and an error wrapped by `fmt.Errorf(msg + "%w", inner)`. -/
inductive GoError where
  | EOF
  | other (msg : String)
  | wrap (msg : String) (inner : GoError)
  | validation (e : ValidationError)
  | api (e : APIError)
  deriving DecidableEq, Repr

/-- Dynamic values of type `interface{}`: the shapes `encoding/json` produces (`nil`, `bool`,
`float64`, `string`, `[]interface{}`, `map[string]interface{}`) together with the statically
typed values callers of the package build (`int`, `[]string`, `[]map[string]interface{}`).
A map is an association list; lookup takes the first binding of a key. -/
inductive GoValue where
  | nil
  | bool (b : Bool)
  | int (n : Int)
  | float64 (x : Float64)
  | str (s : String)
  | slice (xs : List GoValue)
  | map (kvs : List (String × GoValue))
  | strSlice (xs : List String)
  | mapSlice (ms : List (List (String × GoValue)))

/-- Go map indexing `m[k]` on a `map[string]interface{}`: `none` is the nil interface returned
for a missing key. -/
def mapIndex (m : List (String × GoValue)) (k : String) : Option GoValue :=
  match m.find? (fun kv => kv.1 == k) with
  | some kv => some kv.2
  | none => none

/-- Go `strings.HasPrefix`. -/
def HasPrefix (s pre : String) : Bool :=
  pre.data.isPrefixOf s.data

/-- Go `strings.TrimPrefix`. -/
def TrimPrefix (s pre : String) : String :=
  if HasPrefix s pre then String.mk (s.data.drop pre.data.length) else s

/-! ## `types.go` -/

/-- The struct `FunctionCall`. -/
structure FunctionCall where
  Name : String
  Arguments : String

/-- The struct `ToolCall` (field `Type` is spelled `Typ`). -/
structure ToolCall where
  ID : String
  Typ : String
  Function : FunctionCall

/-- The struct `Message`. -/
structure Message where
  Role : String
  Content : GoValue
  Name : String
  ToolCalls : List ToolCall

/-! ## `stream.go` -/

/-- The struct `StreamChoice`; `Delta` is a pointer. -/
structure StreamChoice where
  Index : Int
  Delta : Option Message
  FinishReason : String

/-- The struct `StreamResponse`. -/
structure StreamResponse where
  ID : String
  Object : String
  Created : Int
  Model : String
  Choices : List StreamChoice

/-- A `bufio.Scanner` with the default line splitter, seen from its client: `tokens` are the
lines `Scan`/`Text` deliver, in order, before `Scan` first reports `false`; `err` is the
error the scanner has stopped with by then (`io.EOF` at natural end of input, otherwise a
read error or `bufio.ErrTooLong`); `late` are the tokens `Scan` delivers after it has
reported `false` once, namely the buffer it was holding when it stopped with
`bufio.ErrTooLong`. After them every further `Scan` reports `false`. -/
structure Scanner where
  tokens : List String
  err : GoError
  late : List String

/-- Go `bufio.MaxScanTokenSize`, the size to which the buffer of a scanner made by
`bufio.NewScanner` may grow: 64 KiB. -/
def MaxScanTokenSize : Nat := 65536

/-- Go `bufio.ErrTooLong`. -/
def ErrTooLong : GoError :=
  GoError.other "bufio.Scanner: token too long"

/-- The length in bytes of a text, the sum of the UTF-8 sizes of its characters. -/
def byteLength : List Char → Nat
  | [] => 0
  | c :: cs => c.utf8Size + byteLength cs

/-- The function `dropCR` of `bufio`: a carriage return at the end of a line is dropped. -/
def dropCR (line : String) : String :=
  if line.data.getLast? = some '\r' then String.mk line.data.dropLast else line

/-- The characters that fit whole into the first `n` bytes of a text. -/
def takeBytes : Nat → List Char → List Char
  | _, [] => []
  | n, c :: cs => if c.utf8Size ≤ n then c :: takeBytes (n - c.utf8Size) cs else []

/-- Go `bufio.NewScanner` over a body made of the given lines, each followed by a newline,
which ends with the read error `err`. (A last line left without its newline is read the
same way when it is shorter than `MaxScanTokenSize` bytes.) A line that with its newline
fits into the buffer is delivered without its carriage return. At the first line of `MaxScanTokenSize` bytes or more `Scan` reports `false` with
`bufio.ErrTooLong`; the next `Scan` hands out the full buffer, the first
`MaxScanTokenSize` bytes of that line, as a token, and nothing after it is read. (A
character cut by the end of the buffer is left out of that token.) -/
def NewScanner (lines : List String) (err : GoError) : Scanner :=
  match lines with
  | [] => ⟨[], err, []⟩
  | line :: rest =>
    if byteLength line.data < MaxScanTokenSize then
      ⟨dropCR line :: (NewScanner rest err).tokens, (NewScanner rest err).err,
        (NewScanner rest err).late⟩
    else ⟨[], ErrTooLong, [dropCR (String.mk (takeBytes MaxScanTokenSize line.data))]⟩

/-- The method `bufio.Scanner.Err` once `Scan` has reported `false`: `io.EOF` is not an error. -/
def Scanner.Err (sc : Scanner) : Option GoError :=
  if sc.err = GoError.EOF then none else some sc.err

/-- An `io.ReadCloser` as `Close` sees it: the state of the value behind the interface and
the `Close` method of its dynamic type, which returns an error or `nil` and a new state. -/
structure ReadCloser (ρ : Type) where
  state : ρ
  closeFn : ρ → Option GoError × ρ

/-- The struct `StreamReader` (the unused `ctx` field is left out). The scanner stands for
what it delivers while the reader is left open. -/
structure StreamReader (ρ : Type) where
  reader : ReadCloser ρ
  scanner : Scanner

/-- A Go result `(*StreamResponse, error)`. -/
abbrev RecvResult := Option StreamResponse × Option GoError

/-- The decoder `json.Unmarshal([]byte(data), &response)` for a fresh `StreamResponse`:
the decoded value, or the error. -/
abbrev Unmarshal := String → Except GoError StreamResponse

/-- The body of `StreamReader.Recv` over the tokens the scanner delivers before `Scan`
reports `false`: the `for s.scanner.Scan()` loop, then `s.scanner.Err()`. Returns the
result and, when the call returns from inside the loop, the tokens not yet delivered;
`none` says that `Scan` has reported `false`. -/
def recvLoop (unmarshal : Unmarshal) (err : GoError) :
    List String → RecvResult × Option (List String)
  | [] =>
    match Scanner.Err ⟨[], err, []⟩ with
    | some e => ((none, some e), none)
    | none => ((none, some GoError.EOF), none)
  | line :: rest =>
    if line = "" then recvLoop unmarshal err rest
    else if HasPrefix line "data: " then
      let data := TrimPrefix line "data: "
      if data = "[DONE]" then ((none, some GoError.EOF), some rest)
      else
        match unmarshal data with
        | Except.error e =>
          ((none, some (GoError.wrap "failed to unmarshal stream response: " e)), some rest)
        | Except.ok response => ((some response, none), some rest)
    else recvLoop unmarshal err rest

/-- The method `StreamReader.Recv`: the result and the decoder afterwards. When `Scan` has
reported `false` in the call, the next call starts on the late tokens of the scanner. -/
def StreamReader.Recv {ρ : Type} (unmarshal : Unmarshal) (s : StreamReader ρ) :
    RecvResult × StreamReader ρ :=
  let out := recvLoop unmarshal s.scanner.err s.scanner.tokens
  match out.2 with
  | some rest => (out.1, { s with scanner := { s.scanner with tokens := rest } })
  | none => (out.1, { s with scanner := ⟨s.scanner.late, s.scanner.err, []⟩ })

/-- The method `StreamReader.Close`: `return s.reader.Close()`. -/
def StreamReader.Close {ρ : Type} (s : StreamReader ρ) : Option GoError × StreamReader ρ :=
  let out := s.reader.closeFn s.reader.state
  (out.1, { s with reader := { s.reader with state := out.2 } })

/-- The results of `k` successive calls of `Recv`, in call order, and the decoder after
the last of them. -/
def RecvTimes {ρ : Type} (unmarshal : Unmarshal) : Nat → StreamReader ρ →
    List RecvResult × StreamReader ρ
  | 0, s => ([], s)
  | k + 1, s =>
    let first := StreamReader.Recv unmarshal s
    let later := RecvTimes unmarshal k first.2
    (first.1 :: later.1, later.2)

/-! ## `utils.go` -/

/-- The helper `join`: the loop `result += sep + strs[i]` from index 1. -/
def join (strs : List String) (sep : String) : String :=
  match strs with
  | [] => ""
  | [s] => s
  | s :: rest => rest.foldl (fun result x => result ++ (sep ++ x)) s

/-- One iteration of the loop of `ExtractContent` over the parts: the text of a part is
appended when the part is a `map[string]interface{}`, its `type` entry equals the string
`text` and its `text` entry is a string. -/
def extractStep (textParts : List String) (part : GoValue) : List String :=
  match part with
  | GoValue.map partMap =>
    match mapIndex partMap "type" with
    | some (GoValue.str ty) =>
      if ty = "text" then
        match mapIndex partMap "text" with
        | some (GoValue.str text) => textParts ++ [text]
        | _ => textParts
      else textParts
    | _ => textParts
  | _ => textParts

/-- The function `ExtractContent`; `sprintv` is `fmt.Sprintf("%v", ·)` and a nil message is
`none`. -/
def ExtractContent (sprintv : GoValue → String) (message : Option Message) : String :=
  match message with
  | none => ""
  | some m =>
    match m.Content with
    | GoValue.str content => content
    | GoValue.slice content => "[" ++ join (content.foldl extractStep []) " " ++ "]"
    | content => sprintv content


/-! ## `fmt` -/

/-- An argument of `fmt.Sprintf` as the package passes them: a string for `%s`, an `int`
for `%d`. -/
inductive FmtArg where
  | s (x : String)
  | d (n : Int)

/-- The expansion of a format over its arguments, for the verbs and argument types the
package uses: `%s` with a string prints the string, `%d` with an `int` prints it in decimal,
every other character is copied. -/
def sprintfChars : List Char → List FmtArg → List Char
  | [], _ => []
  | '%' :: 's' :: rest, FmtArg.s x :: args => x.data ++ sprintfChars rest args
  | '%' :: 'd' :: rest, FmtArg.d n :: args => (toString n).data ++ sprintfChars rest args
  | c :: rest, args => c :: sprintfChars rest args

/-- Go `fmt.Sprintf`, on the formats of the package. -/
def Sprintf (format : String) (args : List FmtArg) : String :=
  String.mk (sprintfChars format.data args)

/-! ## `types.go`: requests and responses -/

/-- The struct `ToolFunction`. -/
structure ToolFunction where
  Name : String
  Description : String
  Parameters : GoValue

/-- The struct `Tool` (field `Type` is spelled `Typ`). -/
structure Tool where
  Typ : String
  Function : ToolFunction

/-- The struct `ChatRequest`; a pointer field is an option, a slice is a list, and the map
`Extra` is an association list. -/
structure ChatRequest where
  Model : String
  Messages : List Message
  Temperature : Option Float64
  TopP : Option Float64
  N : Option Int
  Stream : Option Bool
  Stop : List String
  MaxTokens : Option Int
  Tools : List Tool
  ToolChoice : GoValue
  Extra : List (String × GoValue)

/-- The struct `Usage`. -/
structure Usage where
  PromptTokens : Int
  CompletionTokens : Int
  TotalTokens : Int

/-- The struct `Choice`. -/
structure Choice where
  Index : Int
  Message : Option ai.Message
  Delta : Option ai.Message
  FinishReason : String

/-- The struct `ChatResponse`. -/
structure ChatResponse where
  ID : String
  Object : String
  Created : Int
  Model : String
  Choices : List Choice
  Usage : Option Usage

/-! ## `errors.go` -/

/-- The method `APIError.Error`. -/
def APIError.Error (e : APIError) : String :=
  Sprintf "OpenAI API error (code: %d, type: %s): %s"
    [FmtArg.d e.Code, FmtArg.s e.Typ, FmtArg.s e.Message]

/-- The method `ValidationError.Error`. -/
def ValidationError.Error (e : ValidationError) : String :=
  Sprintf "validation error for field '%s': %s" [FmtArg.s e.Field, FmtArg.s e.Message]

/-- The struct `RateLimitError`, which embeds an `*APIError`. -/
structure RateLimitError where
  APIError : APIError
  RetryAfter : Int

/-- The method `RateLimitError.Error`. -/
def RateLimitError.Error (e : RateLimitError) : String :=
  Sprintf "Rate limit exceeded, retry after %d seconds: %s"
    [FmtArg.d e.RetryAfter, FmtArg.s e.APIError.Error]

/-- The test `p != nil && (*p < lo || *p > hi)` of `ValidateRequest` on a `*float64`. -/
def rejectsFloat (p : Option Float64) (lo hi : Float64) : Bool :=
  match p with
  | none => false
  | some x => x.lt lo || hi.lt x

/-- The function `ValidateRequest`, on a non-nil request: `none` is the nil error. -/
def ValidateRequest (req : ChatRequest) : Option GoError :=
  if req.Model = "" then
    some (GoError.validation ⟨"model", "model is required"⟩)
  else if req.Messages.length = 0 then
    some (GoError.validation ⟨"messages", "at least one message is required"⟩)
  else if rejectsFloat req.Temperature (Float64.fin 0) (Float64.fin 2) then
    some (GoError.validation ⟨"temperature", "temperature must be between 0 and 2"⟩)
  else if rejectsFloat req.TopP (Float64.fin 0) (Float64.fin 1) then
    some (GoError.validation ⟨"top_p", "top_p must be between 0 and 1"⟩)
  else none

/-! ## `message.go` -/

/-- A Go slice of messages: `elems` are the elements below the length, `spare` the slots of
the backing array between length and capacity, which keep what was last written to them.
After a reallocation the new slots beyond the length hold zero values that nothing reads,
and are left out. -/
structure MessageSlice where
  elems : List Message
  spare : List Message

/-- Go `append(s, m)`: written into the first spare slot when there is one, into a new
backing array otherwise. -/
def MessageSlice.append (s : MessageSlice) (m : Message) : MessageSlice :=
  match s.spare with
  | [] => ⟨s.elems ++ [m], []⟩
  | _ :: spare => ⟨s.elems ++ [m], spare⟩

/-- Go `s[:0]`: the length becomes zero, the backing array and its contents stay. -/
def MessageSlice.resliceZero (s : MessageSlice) : MessageSlice :=
  ⟨[], s.elems ++ s.spare⟩

/-- The struct `MessageBuilder`. -/
structure MessageBuilder where
  messages : MessageSlice

/-- The function `NewMessageBuilder`: `make([]Message, 0)`. -/
def NewMessageBuilder : MessageBuilder :=
  ⟨⟨[], []⟩⟩

/-- The method `MessageBuilder.System`. -/
def MessageBuilder.System (b : MessageBuilder) (content : String) : MessageBuilder :=
  ⟨b.messages.append ⟨"system", GoValue.str content, "", []⟩⟩

/-- The method `MessageBuilder.User`. -/
def MessageBuilder.User (b : MessageBuilder) (content : String) : MessageBuilder :=
  ⟨b.messages.append ⟨"user", GoValue.str content, "", []⟩⟩

/-- The method `MessageBuilder.UserWithImages`; the content is a
`[]map[string]interface{}`. -/
def MessageBuilder.UserWithImages (b : MessageBuilder) (text : String)
    (imageUrls : List String) : MessageBuilder :=
  let textPart : List (List (String × GoValue)) :=
    if text ≠ "" then [[("type", GoValue.str "text"), ("text", GoValue.str text)]] else []
  let content := imageUrls.foldl
    (fun content url => content ++
      [[("type", GoValue.str "image_url"),
        ("image_url", GoValue.map [("url", GoValue.str url)])]])
    textPart
  ⟨b.messages.append ⟨"user", GoValue.mapSlice content, "", []⟩⟩

/-- The method `MessageBuilder.Assistant`. -/
def MessageBuilder.Assistant (b : MessageBuilder) (content : String) : MessageBuilder :=
  ⟨b.messages.append ⟨"assistant", GoValue.str content, "", []⟩⟩

/-- The method `MessageBuilder.AssistantWithTools`. -/
def MessageBuilder.AssistantWithTools (b : MessageBuilder) (content : String)
    (toolCalls : List ToolCall) : MessageBuilder :=
  ⟨b.messages.append ⟨"assistant", GoValue.str content, "", toolCalls⟩⟩

/-- The method `MessageBuilder.Tool`. -/
def MessageBuilder.Tool (b : MessageBuilder) (toolCallId content : String) : MessageBuilder :=
  ⟨b.messages.append ⟨"tool", GoValue.str content, toolCallId, []⟩⟩

/-- The method `MessageBuilder.Build`: the elements of the slice it returns. -/
def MessageBuilder.Build (b : MessageBuilder) : List Message :=
  b.messages.elems

/-- The method `MessageBuilder.Clear`. -/
def MessageBuilder.Clear (b : MessageBuilder) : MessageBuilder :=
  ⟨b.messages.resliceZero⟩

/-! ## `config.go`, `client.go`, `http.go` -/

/-- The struct `Config`; the map `Headers` is an association list, ranged over in list
order. -/
structure Config where
  BaseURL : String
  APIKey : String
  Timeout : Int
  Headers : List (String × String)
  Proxy : String
  RetryCount : Int

/-- The struct `Client`; of the `*http.Client` the timeout is kept. -/
structure Client where
  config : Config
  httpTimeout : Int

/-- Assignment `m[k] = v` on a map held as an association list: the binding of `k` is
replaced where it stands, or added. -/
def assocSet {β : Type} (m : List (String × β)) (k : String) (v : β) : List (String × β) :=
  match m with
  | [] => [(k, v)]
  | (k', v') :: rest => if k' = k then (k, v) :: rest else (k', v') :: assocSet rest k v

/-- An `http.Header` on which only `Set` is used: one value for each canonical key. -/
structure Header where
  entries : List (String × String)

/-- The method `http.Header.Set`; `canon` is `textproto.CanonicalMIMEHeaderKey`. -/
def Header.Set (canon : String → String) (h : Header) (key value : String) : Header :=
  ⟨assocSet h.entries (canon key) value⟩

/-- The method `http.Header.Get`: the value under the canonical key, or the empty string. -/
def Header.Get (canon : String → String) (h : Header) (key : String) : String :=
  match h.entries.find? (fun kv => kv.1 == canon key) with
  | some kv => kv.2
  | none => ""

/-- An `*http.Request` as built by the package. -/
structure HTTPRequest where
  Method : String
  URL : String
  Header : Header
  Body : String

/-- A response body: the text that `io.ReadAll` or the JSON decoder reads from it, the same
text as lines (what stands before each newline, and what is left at the end) with the
error that ends the read, and the reader to close. -/
structure ResponseBody (ρ : Type) where
  text : String
  lines : List String
  readErr : GoError
  reader : ReadCloser ρ

/-- An `*http.Response`. -/
structure HTTPResponse (ρ : Type) where
  StatusCode : Int
  Body : ResponseBody ρ

/-- The library code the transport calls: `canon` is `textproto.CanonicalMIMEHeaderKey`;
`encode req` is the map left in `reqMap` by `json.Marshal(req)` followed by
`json.Unmarshal(reqBytes, &reqMap)` (empty when either fails, the errors being dropped);
`marshal` is `json.Marshal` on that map; `newRequest url` is the error of
`http.NewRequestWithContext`, if any; `roundTrip` is `c.http.Do`; `decode` is
`json.NewDecoder(resp.Body).Decode` on the body text. -/
structure Env (ρ : Type) where
  canon : String → String
  encode : ChatRequest → List (String × GoValue)
  marshal : List (String × GoValue) → Except GoError String
  newRequest : String → Option GoError
  roundTrip : HTTPRequest → Except GoError (HTTPResponse ρ)
  decode : String → Except GoError ChatResponse

/-- What a call does to the network: a request handed to `c.http.Do`, a response body
closed. -/
inductive NetEvent where
  | sent (r : HTTPRequest)
  | bodyClosed

/-- The requests handed to `c.http.Do` among the events of a call. -/
def sentRequests : List NetEvent → List HTTPRequest
  | [] => []
  | NetEvent.sent r :: rest => r :: sentRequests rest
  | NetEvent.bodyClosed :: rest => sentRequests rest

/-- The loop `for k, v := range req.Extra { reqMap[k] = v }`. -/
def mergeExtra (reqMap extra : List (String × GoValue)) : List (String × GoValue) :=
  extra.foldl (fun m kv => assocSet m kv.1 kv.2) reqMap

/-- The method `Client.setHeaders`. -/
def Client.setHeaders (canon : String → String) (c : Client) (req : HTTPRequest) :
    HTTPRequest :=
  let h1 := req.Header.Set canon "Content-Type" "application/json"
  let h2 := h1.Set canon "Authorization" (Sprintf "Bearer %s" [FmtArg.s c.config.APIKey])
  { req with Header := c.config.Headers.foldl (fun h kv => h.Set canon kv.1 kv.2) h2 }

/-- The method `Client.doChatRequest`: the Go result and the network events of the call. -/
def Client.doChatRequest {ρ : Type} (env : Env ρ) (c : Client) (req : ChatRequest) :
    (Option ChatResponse × Option GoError) × List NetEvent :=
  let reqMap := mergeExtra (env.encode req) req.Extra
  match env.marshal reqMap with
  | Except.error err => ((none, some (GoError.wrap "failed to marshal request: " err)), [])
  | Except.ok jsonData =>
    let url := Sprintf "%s/v1/chat/completions" [FmtArg.s c.config.BaseURL]
    match env.newRequest url with
    | some err => ((none, some (GoError.wrap "failed to create request: " err)), [])
    | none =>
      let httpReq := c.setHeaders env.canon ⟨"POST", url, ⟨[]⟩, jsonData⟩
      match env.roundTrip httpReq with
      | Except.error err =>
        ((none, some (GoError.wrap "request failed: " err)), [NetEvent.sent httpReq])
      | Except.ok resp =>
        if resp.StatusCode ≠ 200 then
          ((none, some (GoError.other
              (Sprintf "API error %d: %s" [FmtArg.d resp.StatusCode, FmtArg.s resp.Body.text]))),
            [NetEvent.sent httpReq, NetEvent.bodyClosed])
        else
          match env.decode resp.Body.text with
          | Except.error err =>
            ((none, some (GoError.wrap "failed to decode response: " err)),
              [NetEvent.sent httpReq, NetEvent.bodyClosed])
          | Except.ok response =>
            ((some response, none), [NetEvent.sent httpReq, NetEvent.bodyClosed])

/-- The method `Client.doChatStreamRequest`: the Go result and the network events of the
call. -/
def Client.doChatStreamRequest {ρ : Type} (env : Env ρ) (c : Client) (req : ChatRequest) :
    (Option (StreamReader ρ) × Option GoError) × List NetEvent :=
  let reqMap := mergeExtra (env.encode req) req.Extra
  match env.marshal reqMap with
  | Except.error err => ((none, some (GoError.wrap "failed to marshal request: " err)), [])
  | Except.ok jsonData =>
    let url := Sprintf "%s/v1/chat/completions" [FmtArg.s c.config.BaseURL]
    match env.newRequest url with
    | some err => ((none, some (GoError.wrap "failed to create request: " err)), [])
    | none =>
      let httpReq0 := c.setHeaders env.canon ⟨"POST", url, ⟨[]⟩, jsonData⟩
      let httpReq : HTTPRequest :=
        { httpReq0 with Header := httpReq0.Header.Set env.canon "Accept" "text/event-stream" }
      match env.roundTrip httpReq with
      | Except.error err =>
        ((none, some (GoError.wrap "request failed: " err)), [NetEvent.sent httpReq])
      | Except.ok resp =>
        if resp.StatusCode ≠ 200 then
          ((none, some (GoError.other
              (Sprintf "API error %d: %s" [FmtArg.d resp.StatusCode, FmtArg.s resp.Body.text]))),
            [NetEvent.sent httpReq, NetEvent.bodyClosed])
        else
          ((some ⟨resp.Body.reader, NewScanner resp.Body.lines resp.Body.readErr⟩, none),
            [NetEvent.sent httpReq])

/-- The method `Client.ChatCompletion`. -/
def Client.ChatCompletion {ρ : Type} (env : Env ρ) (c : Client) (req : ChatRequest) :
    (Option ChatResponse × Option GoError) × List NetEvent :=
  if req.Stream = some true then
    ((none, some (GoError.other "use ChatCompletionStream for streaming requests")), [])
  else c.doChatRequest env req

/-- The method `Client.ChatCompletionStream`: the Go result, the network events of the
call, and the request as the call leaves it (the call assigns `req.Stream`). -/
def Client.ChatCompletionStream {ρ : Type} (env : Env ρ) (c : Client) (req : ChatRequest) :
    ((Option (StreamReader ρ) × Option GoError) × List NetEvent) × ChatRequest :=
  let req1 := { req with Stream := some true }
  (c.doChatStreamRequest env req1, req1)

/-! ## Streams and sample data used in the statements -/

/-- Lines of a stream of events: each payload on a `data: ` line followed by a blank line. -/
def eventLines : List String → List String
  | [] => []
  | p :: ps => ("data: " ++ p) :: "" :: eventLines ps

/-- The two tests of `Recv` that let a line through to the payload handling: the line is
not blank and begins with the literal prefix `data: `. -/
def isDataLine (line : String) : Bool :=
  line != "" && HasPrefix line "data: "

/-- The Go result of a call that delivers the fragment `f`. -/
def fragment (f : StreamResponse) : RecvResult := (some f, none)

/-- A decoder that behaves as `json.Unmarshal` on two payloads, the empty object and an
object with an `id`, and rejects every other payload. -/
def sampleUnmarshal : Unmarshal := fun data =>
  if data = "\x7b\x7d" then Except.ok ⟨"", "", 0, "", []⟩
  else if data = "\x7b\"id\":\"a\"\x7d" then Except.ok ⟨"a", "", 0, "", []⟩
  else Except.error (GoError.other "invalid character")

/-- A reader in the manner of `*os.File`: the first `Close` succeeds, a later one reports
that the reader is already closed. The state records whether `Close` has been called. -/
def strictReader : ReadCloser Bool :=
  ⟨false, fun closed =>
    (if closed then some (GoError.other "file already closed") else none, true)⟩

/-- A reader in the manner of an HTTP response body: every `Close` succeeds. -/
def bodyReader : ReadCloser Bool :=
  ⟨false, fun _ => (none, true)⟩

/-- The decode error `Recv` returns when `json.Unmarshal` fails with `e`. -/
def decodeError (e : GoError) : GoError :=
  GoError.wrap "failed to unmarshal stream response: " e

/-- A decoder whose input holds a malformed `data: ` line and then a valid event. -/
def malformedThenValid : StreamReader Bool :=
  ⟨bodyReader, ⟨["data: oops", "", "data: \x7b\x7d", ""], GoError.EOF, []⟩⟩

/-- A decoder whose input holds the end marker and then a valid event. -/
def doneThenValid : StreamReader Bool :=
  ⟨bodyReader, ⟨["data: [DONE]", "", "data: \x7b\x7d", ""], GoError.EOF, []⟩⟩

/-- A decoder, not yet read from, over a reader whose second `Close` fails. -/
def strictDecoder : StreamReader Bool :=
  ⟨strictReader, ⟨["data: \x7b\x7d", "", "data: [DONE]", ""], GoError.EOF, []⟩⟩

/-- A decoder, not yet read from, over a reader every `Close` of which succeeds. -/
def bodyDecoder : StreamReader Bool :=
  ⟨bodyReader, ⟨["data: \x7b\x7d", "", "data: [DONE]", ""], GoError.EOF, []⟩⟩

/-- The text a part contributes in the words of the specification: the `text` string of a
part whose type is `text` and whose text is a string; nothing for any other part. -/
def partText (part : GoValue) : Option String :=
  match part with
  | GoValue.map m =>
    match mapIndex m "type", mapIndex m "text" with
    | some (GoValue.str ty), some (GoValue.str t) => if ty = "text" then some t else none
    | _, _ => none
  | _ => none

/-- A part list with a text part, an image part and a second text part. -/
def sampleParts : List GoValue :=
  [GoValue.map [("type", GoValue.str "text"), ("text", GoValue.str "a")],
   GoValue.map [("type", GoValue.str "image_url"),
     ("image_url", GoValue.map [("url", GoValue.str "https://example.com/image.jpg")])],
   GoValue.map [("type", GoValue.str "text"), ("text", GoValue.str "b")]]

/-! ## Notions and sample data for validation, builders and transport -/

/-- In the words of the specification: the value lies in the closed interval from `lo` to
`hi`. Only a finite value can. -/
def Float64.inRange (x : Float64) (lo hi : Rat) : Prop :=
  match x with
  | Float64.fin q => lo ≤ q ∧ q ≤ hi
  | _ => False

/-- The Request invariant of the specification: model non-empty, messages non-empty,
temperature absent or in `[0, 2]`, top_p absent or in `[0, 1]`. -/
def RequestInvariant (req : ChatRequest) : Prop :=
  req.Model ≠ "" ∧ req.Messages ≠ [] ∧
    (∀ t, req.Temperature = some t → t.inRange 0 2) ∧
    (∀ p, req.TopP = some p → p.inRange 0 1)

/-- In the words of the specification: the parameter is present and out of range, that is,
its value does not lie in the closed interval from `lo` to `hi`. -/
def presentOutOfRange (p : Option Float64) (lo hi : Rat) : Prop :=
  ∃ x, p = some x ∧ ¬ x.inRange lo hi

/-- The invalid request of `TestConfigValidation`: empty model, no messages, temperature
3.0, top_p 1.5. -/
def invalidRequest : ChatRequest :=
  ⟨"", [], some (Float64.fin 3), some (Float64.fin (3 / 2)), none, none, [], none, [],
    GoValue.nil, []⟩

/-- A request with a model, one message, and the given temperature and top_p. -/
def sampledRequest (temperature topP : Option Float64) : ChatRequest :=
  ⟨"gpt-4.1", [⟨"user", GoValue.str "test", "", []⟩], temperature, topP, none, none, [], none,
    [], GoValue.nil, []⟩

/-- A call of one of the methods `System`, `User`, `Assistant`, `Tool` with its arguments. -/
inductive BuilderCall where
  | System (content : String)
  | User (content : String)
  | Assistant (content : String)
  | Tool (toolCallId content : String)

/-- The call applied to a builder. -/
def BuilderCall.run (b : MessageBuilder) : BuilderCall → MessageBuilder
  | BuilderCall.System content => b.System content
  | BuilderCall.User content => b.User content
  | BuilderCall.Assistant content => b.Assistant content
  | BuilderCall.Tool toolCallId content => b.Tool toolCallId content

/-- The calls applied to a builder one after the other. -/
def runCalls (b : MessageBuilder) (calls : List BuilderCall) : MessageBuilder :=
  calls.foldl BuilderCall.run b

/-- The role that goes with the method called. -/
def BuilderCall.role : BuilderCall → String
  | BuilderCall.System _ => "system"
  | BuilderCall.User _ => "user"
  | BuilderCall.Assistant _ => "assistant"
  | BuilderCall.Tool _ _ => "tool"

/-- The content string passed to the method. -/
def BuilderCall.content : BuilderCall → String
  | BuilderCall.System content => content
  | BuilderCall.User content => content
  | BuilderCall.Assistant content => content
  | BuilderCall.Tool _ content => content

/-- The name a message gets: the tool call id for `Tool`, none otherwise. -/
def BuilderCall.name : BuilderCall → String
  | BuilderCall.Tool toolCallId _ => toolCallId
  | _ => ""

/-- Role and content of a message. -/
def roleAndContent (m : Message) : String × GoValue :=
  (m.Role, m.Content)

/-- The bytes `net/textproto` accepts in a header key: letters, digits and the token
punctuation. -/
def validHeaderFieldByte (c : Char) : Bool :=
  c.isAlphanum || "!#$%&\x27*+-.^_\x60|~".data.contains c

/-- The rewriting of `textproto.CanonicalMIMEHeaderKey`: upper case for the first letter
and for a letter after a hyphen, lower case for the other letters. -/
def canonicalChars : Bool → List Char → List Char
  | _, [] => []
  | upper, c :: rest =>
    let c1 :=
      if upper && c.isLower then c.toUpper
      else if !upper && c.isUpper then c.toLower
      else c
    c1 :: canonicalChars (c1 == '-') rest

/-- Go `textproto.CanonicalMIMEHeaderKey`: a key made of accepted bytes is rewritten, any
other key is returned as it is. -/
def CanonicalMIMEHeaderKey (s : String) : String :=
  if s.data.all validHeaderFieldByte then String.mk (canonicalChars true s.data) else s

/-- The JSON text of a value, for nil, booleans and strings without characters to escape. -/
def renderScalar : GoValue → Option String
  | GoValue.nil => some "null"
  | GoValue.bool b => some (toString b)
  | GoValue.str s => some ("\"" ++ s ++ "\"")
  | _ => none

/-- The JSON object `json.Marshal` writes for a map whose values are nil, booleans and
plain strings and whose keys are listed in increasing order, as the sample requests give
them; a map with any other value is reported as unsupported. -/
def renderObject (m : List (String × GoValue)) : Except GoError String :=
  match m.mapM (fun kv => (renderScalar kv.2).map (fun text => "\"" ++ kv.1 ++ "\":" ++ text)) with
  | some fields => Except.ok ("\x7b" ++ ",".intercalate fields ++ "\x7d")
  | none => Except.error (GoError.other "json: unsupported type")

/-- The map `encoding/json` gives for a request without messages, tools, stop words and
numeric parameters: `messages` is null, `model` is the model, `stream` is there when the
flag is set. -/
def encodePlain (req : ChatRequest) : List (String × GoValue) :=
  [("messages", GoValue.nil), ("model", GoValue.str req.Model)] ++
    (match req.Stream with
     | some b => [("stream", GoValue.bool b)]
     | none => [])

/-- A response decoded from the body text `{"id":"r1"}`. -/
def sampleResponse : ChatResponse :=
  ⟨"r1", "", 0, "", [], none⟩

/-- An environment for the sample requests: the server answers every request with the given
status, body text and body lines; the libraries behave as described at `renderObject` and
`encodePlain`; the response decoder accepts the text `{"id":"r1"}` only. -/
def sampleEnv (status : Int) (text : String) (lines : List String) : Env Bool :=
  { canon := CanonicalMIMEHeaderKey
    encode := encodePlain
    marshal := renderObject
    newRequest := fun _ => none
    roundTrip := fun _ => Except.ok ⟨status, ⟨text, lines, GoError.EOF, bodyReader⟩⟩
    decode := fun body =>
      if body = "\x7b\"id\":\"r1\"\x7d" then Except.ok sampleResponse
      else Except.error (GoError.other "invalid character") }

/-- A client with the given custom headers. -/
def sampleClient (headers : List (String × String)) : Client :=
  ⟨⟨"https://api.example.com", "sk-test", 30000000000, headers, "", 3⟩, 30000000000⟩

/-- A request with a model and nothing else, and the given extension mapping. -/
def plainRequest (extra : List (String × GoValue)) : ChatRequest :=
  ⟨"gpt-4.1", [], none, none, none, none, [], none, [], GoValue.nil, extra⟩

/-- A request that `ValidateRequest` rejects: no model and no message. -/
def emptyRequest : ChatRequest :=
  ⟨"", [], none, none, none, none, [], none, [], GoValue.nil, []⟩

/-- The formatting `fmt.Sprintf("%v", ·)` of nil, booleans, integers and strings; the
statements use it on these values only. -/
def scalarSprintv : GoValue → String
  | GoValue.nil => "<nil>"
  | GoValue.bool b => toString b
  | GoValue.int n => toString n
  | GoValue.str s => s
  | _ => ""

/-- The error the transport returns for a status other than 200: a plain error with the
text `API error <status>: <body>`. -/
def statusError (code : Int) (body : String) : GoError :=
  GoError.other ("API error " ++ toString code ++ ": " ++ body)

/-! ## `utils.go`: the tool builder -/

/-- The struct `ToolBuilder`; `tools` are the elements of the slice, which the builder only
appends to. -/
structure ToolBuilder where
  tools : List Tool

/-- The function `NewToolBuilder`. -/
def NewToolBuilder : ToolBuilder :=
  ⟨[]⟩

/-- The method `ToolBuilder.AddFunction`. -/
def ToolBuilder.AddFunction (tb : ToolBuilder) (name description : String)
    (parameters : GoValue) : ToolBuilder :=
  ⟨tb.tools ++ [⟨"function", ⟨name, description, parameters⟩⟩]⟩

/-- The method `ToolBuilder.AddWeatherFunction`. -/
def ToolBuilder.AddWeatherFunction (tb : ToolBuilder) : ToolBuilder :=
  let parameters := GoValue.map
    [("type", GoValue.str "object"),
     ("properties", GoValue.map
       [("location", GoValue.map
          [("type", GoValue.str "string"),
           ("description", GoValue.str "城市名称，如：北京、上海")]),
        ("unit", GoValue.map
          [("type", GoValue.str "string"),
           ("enum", GoValue.strSlice ["celsius", "fahrenheit"]),
           ("description", GoValue.str "温度单位")])]),
     ("required", GoValue.strSlice ["location"])]
  tb.AddFunction "get_weather" "获取指定城市的天气信息" parameters

/-- The method `ToolBuilder.AddSearchFunction`. -/
def ToolBuilder.AddSearchFunction (tb : ToolBuilder) : ToolBuilder :=
  let parameters := GoValue.map
    [("type", GoValue.str "object"),
     ("properties", GoValue.map
       [("query", GoValue.map
          [("type", GoValue.str "string"),
           ("description", GoValue.str "搜索关键词")]),
        ("max_results", GoValue.map
          [("type", GoValue.str "integer"),
           ("description", GoValue.str "最大结果数量"),
           ("minimum", GoValue.int 1),
           ("maximum", GoValue.int 10)])]),
     ("required", GoValue.strSlice ["query"])]
  tb.AddFunction "web_search" "在网络上搜索信息" parameters

/-- The method `ToolBuilder.Build`. -/
def ToolBuilder.Build (tb : ToolBuilder) : List Tool :=
  tb.tools

/-! ## `client.go`: configuration -/

/-- The function `NewClient`: a zero timeout of the configuration is set to 30 seconds, in
nanoseconds, and the HTTP client gets the timeout of the configuration. -/
def NewClient (config : Config) : Client :=
  let config1 := if config.Timeout = 0 then { config with Timeout := 30000000000 } else config
  ⟨config1, config1.Timeout⟩

/-- The method `Client.SetConfig`. -/
def Client.SetConfig (c : Client) (config : Config) : Client :=
  { config := config
    httpTimeout := if config.Timeout > 0 then config.Timeout else c.httpTimeout }

/-- The method `Client.GetConfig`. -/
def Client.GetConfig (c : Client) : Config :=
  c.config

/-- The method `Client.ChatCompletion` with the request as the call leaves it: the method
and `doChatRequest` read the request behind the pointer and assign none of its fields. -/
def Client.ChatCompletionWithRequest {ρ : Type} (env : Env ρ) (c : Client)
    (req : ChatRequest) :
    ((Option ChatResponse × Option GoError) × List NetEvent) × ChatRequest :=
  (c.ChatCompletion env req, req)

/-! ## `fmt`: the verb `%v` -/

/-- The order of Go strings on their characters. -/
def charsLess : List Char → List Char → Bool
  | _, [] => false
  | [], _ :: _ => true
  | a :: as, b :: bs =>
    if a.toNat < b.toNat then true
    else if b.toNat < a.toNat then false
    else charsLess as bs

/-- A map entry, key and printed value, put in its place among entries sorted by key. -/
def insertEntry (e : String × String) : List (String × String) → List (String × String)
  | [] => [e]
  | x :: rest =>
    if charsLess e.1.data x.1.data then e :: x :: rest else x :: insertEntry e rest

/-- The entries of a map sorted by key, the order in which `fmt` prints them. -/
def sortEntries : List (String × String) → List (String × String)
  | [] => []
  | e :: rest => insertEntry e (sortEntries rest)

/-- The text `key:value key:value` of the entries of a map. -/
def joinEntries (entries : List (String × String)) : String :=
  " ".intercalate ((sortEntries entries).map (fun e => e.1 ++ ":" ++ e.2))

mutual

/-- Go `fmt.Sprintf("%v", v)`: `<nil>`, a boolean, a number, a string as it is, a slice as
`[a b]`, a map as `map[k:v k:v]` with the keys in increasing order. The text of a `float64`
is left to `fmtFloat`. -/
def sprintValue (fmtFloat : Float64 → String) : GoValue → String
  | GoValue.nil => "<nil>"
  | GoValue.bool b => toString b
  | GoValue.int n => toString n
  | GoValue.float64 x => fmtFloat x
  | GoValue.str s => s
  | GoValue.slice xs => "[" ++ " ".intercalate (sprintValues fmtFloat xs) ++ "]"
  | GoValue.map kvs => "map[" ++ joinEntries (sprintEntries fmtFloat kvs) ++ "]"
  | GoValue.strSlice xs => "[" ++ " ".intercalate xs ++ "]"
  | GoValue.mapSlice ms => "[" ++ " ".intercalate (sprintMaps fmtFloat ms) ++ "]"
termination_by structural v => v

/-- The texts of the elements of a `[]interface{}`. -/
def sprintValues (fmtFloat : Float64 → String) : List GoValue → List String
  | [] => []
  | x :: xs => sprintValue fmtFloat x :: sprintValues fmtFloat xs

/-- The keys of a map with the texts of their values. -/
def sprintEntries (fmtFloat : Float64 → String) :
    List (String × GoValue) → List (String × String)
  | [] => []
  | (k, v) :: rest => (k, sprintValue fmtFloat v) :: sprintEntries fmtFloat rest

/-- The texts of the elements of a `[]map[string]interface{}`. -/
def sprintMaps (fmtFloat : Float64 → String) :
    List (List (String × GoValue)) → List String
  | [] => []
  | m :: ms =>
    ("map[" ++ joinEntries (sprintEntries fmtFloat m) ++ "]") :: sprintMaps fmtFloat ms

end

/-! ## Notions and sample data for the tool builder and the builder's own content -/

/-- A call of one of the methods `AddFunction`, `AddWeatherFunction`, `AddSearchFunction`
with its arguments. -/
inductive ToolBuilderCall where
  | AddFunction (name description : String) (parameters : GoValue)
  | AddWeatherFunction
  | AddSearchFunction

/-- The call applied to a tool builder. -/
def ToolBuilderCall.run (tb : ToolBuilder) : ToolBuilderCall → ToolBuilder
  | ToolBuilderCall.AddFunction name description parameters =>
    tb.AddFunction name description parameters
  | ToolBuilderCall.AddWeatherFunction => tb.AddWeatherFunction
  | ToolBuilderCall.AddSearchFunction => tb.AddSearchFunction

/-- The calls applied to a tool builder one after the other. -/
def runToolCalls (tb : ToolBuilder) (calls : List ToolBuilderCall) : ToolBuilder :=
  calls.foldl ToolBuilderCall.run tb

/-- The function name that goes with the call: the name passed to `AddFunction`,
`get_weather` for `AddWeatherFunction`, `web_search` for `AddSearchFunction`. -/
def ToolBuilderCall.functionName : ToolBuilderCall → String
  | ToolBuilderCall.AddFunction name _ _ => name
  | ToolBuilderCall.AddWeatherFunction => "get_weather"
  | ToolBuilderCall.AddSearchFunction => "web_search"

/-- Type tag and function name of a tool. -/
def typeAndName (t : Tool) : String × String :=
  (t.Typ, t.Function.Name)

/-- The configuration of `TestDynamicConfig`: a new base URL and key, a timeout of 60
seconds and the header `X-Test`. -/
def newConfig : Config :=
  ⟨"https://new-api.com", "new-key", 60000000000, [("X-Test", "dynamic-config")], "", 3⟩

/-- The message that `UserWithImages` adds to a fresh builder for the text `hello` and one
image URL. -/
def imageMessage : Option Message :=
  (NewMessageBuilder.UserWithImages "hello" ["https://example.com/a.jpg"]).Build.head?

/-! ## Sample data longer than the buffer of the scanner -/

/-- A text of 70000 letters `a`, more than `MaxScanTokenSize` bytes. -/
def longText : String :=
  String.mk (List.replicate 70000 'a')

/-- A valid fragment payload of more than 64 KiB: the object whose `id` is the long text. -/
def longPayload : String :=
  "\x7b\"id\":\"" ++ longText ++ "\"\x7d"

/-- A decoder that behaves as `json.Unmarshal` on the long payload and otherwise as
`sampleUnmarshal`. -/
def longUnmarshal : Unmarshal := fun data =>
  if data = longPayload then Except.ok ⟨longText, "", 0, "", []⟩ else sampleUnmarshal data

/-! ## Lemmas on `Recv` -/

theorem hasPrefix_data (p : String) : HasPrefix ("data: " ++ p) "data: " = true := by
  simp [HasPrefix, String.data_append]

theorem trimPrefix_data (p : String) : TrimPrefix ("data: " ++ p) "data: " = p := by
  simp [TrimPrefix, hasPrefix_data]

theorem data_ne_empty (p : String) : "data: " ++ p ≠ "" := by
  intro h
  have hlen := congrArg String.length h
  simp at hlen
  exact absurd hlen.1 (by decide)

theorem isDataLine_data (p : String) : isDataLine ("data: " ++ p) = true := by
  simp [isDataLine, hasPrefix_data, data_ne_empty]

theorem isDataLine_empty : isDataLine "" = false := by
  simp [isDataLine]

/-- A line that fails the tests of `Recv` is passed over. -/
theorem recvLoop_noise (u : Unmarshal) (err : GoError) (line : String) (rest : List String)
    (h : isDataLine line = false) :
    recvLoop u err (line :: rest) = recvLoop u err rest := by
  by_cases hl : line = ""
  · simp [recvLoop, hl]
  · have hp : HasPrefix line "data: " = false := by
      simpa [isDataLine, hl] using h
    simp [recvLoop, hl, hp]

/-- What `Recv` does at a `data: ` line. -/
theorem recvLoop_data (u : Unmarshal) (err : GoError) (p : String) (rest : List String) :
    recvLoop u err (("data: " ++ p) :: rest) =
      if p = "[DONE]" then ((none, some GoError.EOF), some rest)
      else
        match u p with
        | Except.error e =>
          ((none, some (GoError.wrap "failed to unmarshal stream response: " e)), some rest)
        | Except.ok response => ((some response, none), some rest) := by
  simp [recvLoop, data_ne_empty, hasPrefix_data, trimPrefix_data]

/-- Leading lines that fail the tests of `Recv` are passed over. -/
theorem recvLoop_skip (u : Unmarshal) (err : GoError) (pre rest : List String)
    (h : ∀ l ∈ pre, isDataLine l = false) :
    recvLoop u err (pre ++ rest) = recvLoop u err rest := by
  induction pre with
  | nil => rfl
  | cons l pre ih =>
    have hl : isDataLine l = false := h l (List.mem_cons_self _ _)
    have hpre : ∀ x ∈ pre, isDataLine x = false := fun x hx => h x (List.mem_cons_of_mem _ hx)
    rw [List.cons_append, recvLoop_noise u err l _ hl, ih hpre]

/-- At the end of the tokens `Recv` reports the scanner's error, or `io.EOF`. -/
theorem recvLoop_nil (u : Unmarshal) (err : GoError) :
    recvLoop u err [] = ((none, some err), none) := by
  by_cases h : err = GoError.EOF
  · simp [recvLoop, Scanner.Err, h]
  · simp [recvLoop, Scanner.Err, h]

/-- Tokens that all fail the tests of `Recv` take the call to the end of the tokens. -/
theorem recvLoop_all_noise (u : Unmarshal) (err : GoError) (toks : List String)
    (h : ∀ l ∈ toks, isDataLine l = false) :
    recvLoop u err toks = ((none, some err), none) := by
  have := recvLoop_skip u err toks [] h
  rw [List.append_nil] at this
  rw [this, recvLoop_nil]

/-- A call that returns from inside the loop leaves the tokens not yet delivered. -/
theorem recv_of_some {ρ : Type} (u : Unmarshal) (rd : ReadCloser ρ) (err : GoError)
    (toks late rest : List String) (r : RecvResult)
    (h : recvLoop u err toks = (r, some rest)) :
    StreamReader.Recv u ⟨rd, ⟨toks, err, late⟩⟩ = (r, ⟨rd, ⟨rest, err, late⟩⟩) := by
  simp [StreamReader.Recv, h]

/-- A call in which `Scan` reports `false` leaves the late tokens. -/
theorem recv_of_none {ρ : Type} (u : Unmarshal) (rd : ReadCloser ρ) (err : GoError)
    (toks late : List String) (r : RecvResult)
    (h : recvLoop u err toks = (r, none)) :
    StreamReader.Recv u ⟨rd, ⟨toks, err, late⟩⟩ = (r, ⟨rd, ⟨late, err, []⟩⟩) := by
  simp [StreamReader.Recv, h]

theorem recvTimes_add {ρ : Type} (u : Unmarshal) (a b : Nat) (s : StreamReader ρ) :
    RecvTimes u (a + b) s =
      ((RecvTimes u a s).1 ++ (RecvTimes u b (RecvTimes u a s).2).1,
        (RecvTimes u b (RecvTimes u a s).2).2) := by
  induction a generalizing s with
  | zero => simp [RecvTimes]
  | succ a ih =>
    have e : a + 1 + b = (a + b) + 1 := by omega
    rw [e]
    simp [RecvTimes, ih]

theorem isDataLine_blank_list : ∀ l ∈ [""], isDataLine l = false := by
  intro l hl
  simp at hl
  simp [hl, isDataLine_empty]

theorem isDataLine_gap (ps : List String) :
    ∀ l ∈ (if ps = [] then ([] : List String) else [""]), isDataLine l = false := by
  intro l hl
  split at hl
  · cases hl
  · exact isDataLine_blank_list l hl

/-- The decoder after the `N` valid events of `eventLines ps` have been received, and the
`N` results: one fragment per event, in order. -/
theorem recvTimes_events {ρ : Type} (u : Unmarshal) (rd : ReadCloser ρ) (err : GoError)
    (ps : List String) (fs : List StreamResponse) (pre rest late : List String)
    (hpre : ∀ l ∈ pre, isDataLine l = false)
    (hvalid : List.Forall₂ (fun p f => p ≠ "[DONE]" ∧ u p = Except.ok f) ps fs) :
    RecvTimes u ps.length ⟨rd, ⟨pre ++ (eventLines ps ++ rest), err, late⟩⟩ =
      (fs.map fragment, ⟨rd, ⟨(if ps = [] then pre else [""]) ++ rest, err, late⟩⟩) := by
  induction hvalid generalizing pre with
  | nil => simp [RecvTimes, eventLines]
  | @cons p f ps fs hpf _ ih =>
    have hstep : recvLoop u err (pre ++ (eventLines (p :: ps) ++ rest)) =
        ((some f, none), some ([""] ++ (eventLines ps ++ rest))) := by
      rw [recvLoop_skip u err pre _ hpre]
      simp [eventLines, recvLoop_data, hpf.1, hpf.2]
    have hih := ih [""] isDataLine_blank_list
    simp only [List.length_cons, RecvTimes, recv_of_some u rd err _ late _ _ hstep, hih]
    simp [fragment]

/-- A decoder that has only tokens left that `Recv` passes over returns the scanner's
error, without a fragment, at every call. -/
theorem recvTimes_noise {ρ : Type} (u : Unmarshal) (rd : ReadCloser ρ) (err : GoError)
    (k : Nat) (tail late : List String) (h : ∀ l ∈ tail, isDataLine l = false)
    (hlate : ∀ l ∈ late, isDataLine l = false) :
    (RecvTimes u k ⟨rd, ⟨tail, err, late⟩⟩).1 = List.replicate k (none, some err) := by
  induction k generalizing tail late with
  | zero => rfl
  | succ k ih =>
    have hloop := recvLoop_all_noise u err tail h
    have hnil : ∀ l ∈ ([] : List String), isDataLine l = false := by
      intro l hl
      cases hl
    simp only [RecvTimes, recv_of_none u rd err tail late _ hloop, List.replicate_succ]
    rw [ih late [] hlate hnil]

/-- After `N` valid events and the end marker: `N` fragments, then `io.EOF`. -/
theorem recvTimes_events_done {ρ : Type} (u : Unmarshal) (rd : ReadCloser ρ) (err : GoError)
    (ps : List String) (fs : List StreamResponse) (tail late : List String)
    (hvalid : List.Forall₂ (fun p f => p ≠ "[DONE]" ∧ u p = Except.ok f) ps fs) :
    (RecvTimes u (ps.length + 1)
        ⟨rd, ⟨eventLines ps ++ "data: [DONE]" :: tail, err, late⟩⟩).1 =
      fs.map fragment ++ [(none, some GoError.EOF)] := by
  have hev := recvTimes_events u rd err ps fs [] ("data: [DONE]" :: tail) late
    (fun l hl => by cases hl) hvalid
  rw [List.nil_append] at hev
  rw [recvTimes_add, hev]
  have hdone : recvLoop u err ((if ps = [] then [] else [""]) ++ "data: [DONE]" :: tail) =
      ((none, some GoError.EOF), some tail) := by
    rw [recvLoop_skip u err _ _ (isDataLine_gap ps)]
    have := recvLoop_data u err "[DONE]" tail
    simpa using this
  simp [RecvTimes, recv_of_some u rd err _ late _ _ hdone]

/-- After `N` valid events and a malformed line: `N` fragments, then the decode error, and
the tokens after the malformed line are left. -/
theorem recvTimes_events_malformed {ρ : Type} (u : Unmarshal) (rd : ReadCloser ρ)
    (err : GoError) (ps : List String) (fs : List StreamResponse) (bad : String)
    (e : GoError) (tail late : List String)
    (hvalid : List.Forall₂ (fun p f => p ≠ "[DONE]" ∧ u p = Except.ok f) ps fs)
    (hbad : bad ≠ "[DONE]") (herr : u bad = Except.error e) :
    RecvTimes u (ps.length + 1)
        ⟨rd, ⟨eventLines ps ++ ("data: " ++ bad) :: tail, err, late⟩⟩ =
      (fs.map fragment ++ [(none, some (decodeError e))], ⟨rd, ⟨tail, err, late⟩⟩) := by
  have hev := recvTimes_events u rd err ps fs [] (("data: " ++ bad) :: tail) late
    (fun l hl => by cases hl) hvalid
  rw [List.nil_append] at hev
  rw [recvTimes_add, hev]
  have hstep : recvLoop u err ((if ps = [] then [] else [""]) ++ ("data: " ++ bad) :: tail) =
      ((none, some (decodeError e)), some tail) := by
    rw [recvLoop_skip u err _ _ (isDataLine_gap ps), recvLoop_data]
    simp [hbad, herr, decodeError]
  simp [RecvTimes, recv_of_some u rd err _ late _ _ hstep]

/-- One call of `Recv` on filtered tokens gives the result it gives on all tokens and
leaves the filtered rest. -/
theorem recvLoop_filter (u : Unmarshal) (err : GoError) (lines : List String) :
    recvLoop u err (lines.filter isDataLine) =
      ((recvLoop u err lines).1, (recvLoop u err lines).2.map (List.filter isDataLine)) := by
  induction lines with
  | nil => simp [recvLoop_nil]
  | cons l lines ih =>
    by_cases hl : isDataLine l = true
    · have hne : l ≠ "" := by
        intro h0
        rw [h0, isDataLine_empty] at hl
        cases hl
      have hp : HasPrefix l "data: " = true := by
        simpa [isDataLine, hne] using hl
      rw [List.filter_cons_of_pos hl]
      simp only [recvLoop, hne, hp, if_true, if_false]
      split
      · rfl
      · split <;> rfl
    · have hl0 : isDataLine l = false := by simpa using hl
      rw [List.filter_cons_of_neg hl, recvLoop_noise u err l lines hl0]
      exact ih

/-- The results of successive calls are those on the filtered tokens. -/
theorem recvTimes_filter {ρ : Type} (u : Unmarshal) (rd : ReadCloser ρ) (err : GoError)
    (toks late : List String) (k : Nat) :
    (RecvTimes u k ⟨rd, ⟨toks, err, late⟩⟩).1 =
      (RecvTimes u k ⟨rd, ⟨toks.filter isDataLine, err, late⟩⟩).1 := by
  induction k generalizing toks late with
  | zero => rfl
  | succ k ih =>
    have hf := recvLoop_filter u err toks
    cases hout : recvLoop u err toks with
    | mk r rest =>
      rw [hout] at hf
      cases rest with
      | some rest =>
        simp only [Option.map_some'] at hf
        simp only [RecvTimes, recv_of_some u rd err toks late rest r hout,
          recv_of_some u rd err _ late _ r hf]
        rw [ih rest late]
      | none =>
        simp only [Option.map_none'] at hf
        simp only [RecvTimes, recv_of_none u rd err toks late r hout,
          recv_of_none u rd err _ late r hf]

/-! ## Lemmas on `NewScanner` -/

theorem byteLength_append (xs ys : List Char) :
    byteLength (xs ++ ys) = byteLength xs + byteLength ys := by
  induction xs with
  | nil => simp [byteLength]
  | cons c cs ih => simp [byteLength, ih, Nat.add_assoc]

theorem byteLength_replicate_a (n : Nat) : byteLength (List.replicate n 'a') = n := by
  induction n with
  | zero => rfl
  | succ n ih =>
    have ha : Char.utf8Size 'a' = 1 := by decide
    simp [List.replicate_succ, byteLength, ih, ha, Nat.add_comm]

theorem longText_data : longText.data = List.replicate 70000 'a' :=
  rfl

theorem longText_length : longText.length = 70000 :=
  List.length_replicate 70000 'a'

theorem longPayload_length : 70000 ≤ longPayload.length := by
  rw [longPayload, String.length_append, String.length_append, longText_length]
  omega

/-- A line that holds the long text does not fit into the buffer of the scanner. -/
theorem long_line_size (a b : String) :
    ¬ byteLength (a ++ (longText ++ b)).data < MaxScanTokenSize := by
  simp only [String.data_append, byteLength_append, longText_data, byteLength_replicate_a,
    MaxScanTokenSize]
  omega

/-- A line that ends with the long text does not fit into the buffer of the scanner. -/
theorem long_tail_size (a : String) :
    ¬ byteLength (a ++ longText).data < MaxScanTokenSize := by
  simp only [String.data_append, byteLength_append, longText_data, byteLength_replicate_a,
    MaxScanTokenSize]
  omega

/-- The long text is none of the payloads that `sampleUnmarshal` decodes. -/
theorem sampleUnmarshal_longText :
    sampleUnmarshal longText = Except.error (GoError.other "invalid character") := by
  have h1 : longText ≠ "\x7b\x7d" := by
    intro h
    have hlen := congrArg String.length h
    rw [longText_length] at hlen
    exact absurd hlen (by decide)
  have h2 : longText ≠ "\x7b\"id\":\"a\"\x7d" := by
    intro h
    have hlen := congrArg String.length h
    rw [longText_length] at hlen
    exact absurd hlen (by decide)
  simp only [sampleUnmarshal, h1, h2, if_false]

theorem hasPrefix_colon (s : String) : isDataLine (":" ++ s) = false := by
  have h : HasPrefix (":" ++ s) "data: " = false := by
    unfold HasPrefix
    rw [String.data_append]
    rfl
  simp [isDataLine, h]

theorem dropCR_empty : dropCR "" = "" := by
  decide

theorem dropCR_done : dropCR "data: [DONE]" = "data: [DONE]" := by
  decide

theorem dropCR_data (p : String) : dropCR ("data: " ++ p) = "data: " ++ dropCR p := by
  by_cases hp : p.data = []
  · have hp0 : p = "" := String.ext hp
    subst hp0
    decide
  · unfold dropCR
    have hlast : ("data: " ++ p).data.getLast? = p.data.getLast? := by
      rw [String.data_append]
      exact List.getLast?_append_of_ne_nil _ hp
    rw [hlast]
    by_cases hcr : p.data.getLast? = some '\r'
    · simp only [hcr, if_true]
      apply String.ext
      simp only [String.data_append]
      exact List.dropLast_append_of_ne_nil _ hp
    · simp only [hcr, if_false]

/-- Dropping the carriage return does not change whether `Recv` lets the line through. -/
theorem isDataLine_dropCR (l : String) : isDataLine (dropCR l) = isDataLine l := by
  by_cases h : isDataLine l = true
  · have hne : l ≠ "" := by
      intro h0
      rw [h0, isDataLine_empty] at h
      cases h
    have hp : HasPrefix l "data: " = true := by
      simpa [isDataLine, hne] using h
    have hpre : "data: ".data <+: l.data := by
      simpa [HasPrefix] using hp
    obtain ⟨t, ht⟩ := hpre
    have hl : l = "data: " ++ String.mk t := by
      apply String.ext
      rw [String.data_append, ← ht]
    rw [hl, dropCR_data, isDataLine_data, isDataLine_data]
  · have h0 : isDataLine l = false := by simpa using h
    rw [h0]
    unfold dropCR
    by_cases hcr : l.data.getLast? = some '\r'
    · simp only [hcr, if_true]
      by_contra hd
      have hd1 : isDataLine (String.mk l.data.dropLast) = true := by simpa using hd
      have hne : String.mk l.data.dropLast ≠ "" := by
        intro h1
        rw [h1, isDataLine_empty] at hd1
        cases hd1
      have hp : HasPrefix (String.mk l.data.dropLast) "data: " = true := by
        simpa [isDataLine, hne] using hd1
      have hpre : "data: ".data <+: l.data.dropLast := by
        simpa [HasPrefix] using hp
      have hpre2 : "data: ".data <+: l.data :=
        List.IsPrefix.trans hpre (List.dropLast_prefix l.data)
      have hl : HasPrefix l "data: " = true := by
        simpa [HasPrefix] using hpre2
      have hlne : l ≠ "" := by
        intro h1
        rw [h1] at hcr
        simp at hcr
      have : isDataLine l = true := by
        simp [isDataLine, hlne, hl]
      rw [h0] at this
      cases this
    · simp only [hcr, if_false, h0]

theorem map_dropCR_eventLines (ps : List String) :
    (eventLines ps).map dropCR = eventLines (ps.map dropCR) := by
  induction ps with
  | nil => rfl
  | cons p ps ih =>
    simp only [eventLines, List.map_cons, dropCR_data, dropCR_empty, ih]

/-- Lines that fit into the buffer are delivered, without their carriage return, before
what the scanner does on the lines after them. -/
theorem newScanner_short_append (pre rest : List String) (err : GoError)
    (h : ∀ l ∈ pre, byteLength l.data < MaxScanTokenSize) :
    NewScanner (pre ++ rest) err =
      ⟨pre.map dropCR ++ (NewScanner rest err).tokens, (NewScanner rest err).err,
        (NewScanner rest err).late⟩ := by
  induction pre with
  | nil => rfl
  | cons l pre ih =>
    have hl : byteLength l.data < MaxScanTokenSize := h l (List.mem_cons_self _ _)
    have hpre : ∀ x ∈ pre, byteLength x.data < MaxScanTokenSize :=
      fun x hx => h x (List.mem_cons_of_mem _ hx)
    rw [List.cons_append, NewScanner]
    simp only [hl, if_true, ih hpre, List.map_cons, List.cons_append]

/-- At a line that does not fit into the buffer the scanner stops with `ErrTooLong`. -/
theorem newScanner_long (l : String) (rest : List String) (err : GoError)
    (h : ¬ byteLength l.data < MaxScanTokenSize) :
    NewScanner (l :: rest) err =
      ⟨[], ErrTooLong, [dropCR (String.mk (takeBytes MaxScanTokenSize l.data))]⟩ := by
  rw [NewScanner]
  simp only [h, if_false]

/-- The first call of `Recv` on a body whose first line does not fit into the buffer
returns `ErrTooLong`. -/
theorem recv_long_first {ρ : Type} (u : Unmarshal) (rd : ReadCloser ρ) (l : String)
    (rest : List String) (err : GoError) (h : ¬ byteLength l.data < MaxScanTokenSize) :
    (StreamReader.Recv u ⟨rd, NewScanner (l :: rest) err⟩).1 = (none, some ErrTooLong) := by
  rw [newScanner_long l rest err h, recv_of_none u rd ErrTooLong [] _ _ (recvLoop_nil u _)]

/-- When every line that `Recv` passes over fits into the buffer, the scanner over the
filtered lines delivers the filtered tokens, and stops and goes on as over all lines. -/
theorem newScanner_filter (lines : List String) (err : GoError)
    (h : ∀ l ∈ lines, isDataLine l = false → byteLength l.data < MaxScanTokenSize) :
    NewScanner (lines.filter isDataLine) err =
      ⟨(NewScanner lines err).tokens.filter isDataLine, (NewScanner lines err).err,
        (NewScanner lines err).late⟩ := by
  induction lines with
  | nil => rfl
  | cons l lines ih =>
    have hl := h l (List.mem_cons_self _ _)
    have hrest : ∀ x ∈ lines, isDataLine x = false → byteLength x.data < MaxScanTokenSize :=
      fun x hx => h x (List.mem_cons_of_mem _ hx)
    by_cases hd : isDataLine l = true
    · rw [List.filter_cons_of_pos hd]
      by_cases hs : byteLength l.data < MaxScanTokenSize
      · have hdd : isDataLine (dropCR l) = true := by rw [isDataLine_dropCR, hd]
        rw [NewScanner, NewScanner]
        simp only [hs, if_true, ih hrest, List.filter_cons_of_pos hdd]
      · rw [newScanner_long l _ err hs, newScanner_long l _ err hs]
        rfl
    · have hd0 : isDataLine l = false := by simpa using hd
      have hs := hl hd0
      have hdd : ¬ isDataLine (dropCR l) = true := by rw [isDataLine_dropCR]; exact hd
      rw [List.filter_cons_of_neg hd, ih hrest]
      rw [NewScanner]
      simp only [hs, if_true, List.filter_cons_of_neg hdd]

theorem forall₂_map_dropCR (u : Unmarshal) (ps : List String) (fs : List StreamResponse)
    (h : List.Forall₂ (fun p f => dropCR p ≠ "[DONE]" ∧ u (dropCR p) = Except.ok f) ps fs) :
    List.Forall₂ (fun p f => p ≠ "[DONE]" ∧ u p = Except.ok f) (ps.map dropCR) fs := by
  induction h with
  | nil => exact List.Forall₂.nil
  | cons hpf _ ih => exact List.Forall₂.cons hpf ih

/-! ## The streaming decoder -/

/-- C1, as stated, fails. On a valid event whose data line is longer than 64 KiB, followed
by the end marker, the first call of `Recv` returns no fragment and `bufio.ErrTooLong`. -/
theorem recv_events_then_done_counterexample :
    longUnmarshal longPayload = Except.ok ⟨longText, "", 0, "", []⟩ ∧
      (StreamReader.Recv longUnmarshal
          ⟨bodyReader,
            NewScanner (eventLines [longPayload] ++ ["data: [DONE]", ""]) GoError.EOF⟩).1 =
        (none, some ErrTooLong) :=
  ⟨by simp [longUnmarshal],
    recv_long_first longUnmarshal bodyReader ("data: " ++ longPayload) _ GoError.EOF
      (long_line_size ("data: " ++ "\x7b\"id\":\"") "\"\x7d")⟩

/-- C1, amended. A body of `N` valid events, each a `data: ` line followed by a blank line,
then the line `data: [DONE]`, all lines shorter than 64 KiB: the first `N` calls of `Recv`
return, in arrival order, the fragments decoded from the payloads of the `N` data lines (a
carriage return at the end of a line left out), each without an error, and call `N + 1`
returns no fragment and `io.EOF`. -/
theorem recv_events_then_done {ρ : Type} (u : Unmarshal) (rd : ReadCloser ρ) (err : GoError)
    (ps : List String) (fs : List StreamResponse) (tail : List String)
    (hshort : ∀ l ∈ eventLines ps, byteLength l.data < MaxScanTokenSize)
    (hvalid : List.Forall₂
      (fun p f => dropCR p ≠ "[DONE]" ∧ u (dropCR p) = Except.ok f) ps fs) :
    (RecvTimes u (ps.length + 1)
        ⟨rd, NewScanner (eventLines ps ++ "data: [DONE]" :: tail) err⟩).1 =
      fs.map fragment ++ [(none, some GoError.EOF)] := by
  have hsplit : eventLines ps ++ "data: [DONE]" :: tail =
      (eventLines ps ++ ["data: [DONE]"]) ++ tail := by simp
  have hall : ∀ l ∈ eventLines ps ++ ["data: [DONE]"],
      byteLength l.data < MaxScanTokenSize := by
    intro l hl
    rcases List.mem_append.mp hl with h | h
    · exact hshort l h
    · rw [List.mem_singleton.mp h]
      decide
  rw [hsplit, newScanner_short_append _ tail err hall]
  have htoks : (eventLines ps ++ ["data: [DONE]"]).map dropCR ++ (NewScanner tail err).tokens =
      eventLines (ps.map dropCR) ++ "data: [DONE]" :: (NewScanner tail err).tokens := by
    simp [map_dropCR_eventLines, dropCR_done]
  rw [htoks]
  have := recvTimes_events_done u rd (NewScanner tail err).err (ps.map dropCR) fs
    (NewScanner tail err).tokens (NewScanner tail err).late (forall₂_map_dropCR u ps fs hvalid)
  simpa using this

/-- C1, amended, at two events followed by the end marker and a blank line. -/
theorem recv_events_then_done_witness :
    (∀ l ∈ eventLines ["\x7b\x7d", "\x7b\"id\":\"a\"\x7d"],
        byteLength l.data < MaxScanTokenSize) ∧
      List.Forall₂ (fun p f => dropCR p ≠ "[DONE]" ∧ sampleUnmarshal (dropCR p) = Except.ok f)
        ["\x7b\x7d", "\x7b\"id\":\"a\"\x7d"] [⟨"", "", 0, "", []⟩, ⟨"a", "", 0, "", []⟩] ∧
      (RecvTimes sampleUnmarshal (["\x7b\x7d", "\x7b\"id\":\"a\"\x7d"].length + 1)
          ⟨bodyReader,
            NewScanner (eventLines ["\x7b\x7d", "\x7b\"id\":\"a\"\x7d"] ++ "data: [DONE]" :: [""])
              GoError.EOF⟩).1 =
        [⟨"", "", 0, "", []⟩, ⟨"a", "", 0, "", []⟩].map fragment ++ [(none, some GoError.EOF)] :=
  have hs : ∀ l ∈ eventLines ["\x7b\x7d", "\x7b\"id\":\"a\"\x7d"],
      byteLength l.data < MaxScanTokenSize := by decide
  have h : List.Forall₂
      (fun p f => dropCR p ≠ "[DONE]" ∧ sampleUnmarshal (dropCR p) = Except.ok f)
      ["\x7b\x7d", "\x7b\"id\":\"a\"\x7d"] [⟨"", "", 0, "", []⟩, ⟨"a", "", 0, "", []⟩] :=
    List.Forall₂.cons ⟨by decide, rfl⟩ (List.Forall₂.cons ⟨by decide, rfl⟩ List.Forall₂.nil)
  ⟨hs, h, recv_events_then_done sampleUnmarshal bodyReader GoError.EOF _ _ [""] hs h⟩

/-- C2, as stated, fails. On two valid events that reach natural end of input, the data
line of the first being longer than 64 KiB, the first call of `Recv` returns no fragment
and `bufio.ErrTooLong`. -/
theorem recv_events_then_end_of_input_counterexample :
    longUnmarshal longPayload = Except.ok ⟨longText, "", 0, "", []⟩ ∧
      longUnmarshal "\x7b\x7d" = Except.ok ⟨"", "", 0, "", []⟩ ∧
      (StreamReader.Recv longUnmarshal
          ⟨bodyReader, NewScanner (eventLines [longPayload, "\x7b\x7d"]) GoError.EOF⟩).1 =
        (none, some ErrTooLong) ∧
      ErrTooLong ≠ GoError.EOF := by
  refine ⟨by simp [longUnmarshal], ?_, ?_, by decide⟩
  · have hne : "\x7b\x7d" ≠ longPayload := by
      intro h
      have hlen := congrArg String.length h
      have hlong := longPayload_length
      rw [← hlen] at hlong
      exact absurd hlong (by decide)
    simp only [longUnmarshal, hne, if_false]
    rfl
  · exact recv_long_first longUnmarshal bodyReader ("data: " ++ longPayload) _ GoError.EOF
      (long_line_size ("data: " ++ "\x7b\"id\":\"") "\"\x7d")

/-- C2, amended. A body of `N` valid events, all lines shorter than 64 KiB, that reaches
natural end of input without a `data: [DONE]` line: the first `N` calls of `Recv` return
the `N` fragments in order, and call `N + 1` returns no fragment and `io.EOF`, no other
error. -/
theorem recv_events_then_end_of_input {ρ : Type} (u : Unmarshal) (rd : ReadCloser ρ)
    (ps : List String) (fs : List StreamResponse)
    (hshort : ∀ l ∈ eventLines ps, byteLength l.data < MaxScanTokenSize)
    (hvalid : List.Forall₂
      (fun p f => dropCR p ≠ "[DONE]" ∧ u (dropCR p) = Except.ok f) ps fs) :
    (RecvTimes u (ps.length + 1) ⟨rd, NewScanner (eventLines ps) GoError.EOF⟩).1 =
      fs.map fragment ++ [(none, some GoError.EOF)] := by
  have hscan : NewScanner (eventLines ps) GoError.EOF =
      ⟨eventLines (ps.map dropCR), GoError.EOF, []⟩ := by
    have h := newScanner_short_append (eventLines ps) [] GoError.EOF hshort
    rw [List.append_nil, map_dropCR_eventLines] at h
    rw [h]
    show (⟨eventLines (ps.map dropCR) ++ [], GoError.EOF, []⟩ : Scanner) = _
    rw [List.append_nil]
  have hev := recvTimes_events u rd GoError.EOF (ps.map dropCR) fs [] [] []
    (fun l hl => by cases hl) (forall₂_map_dropCR u ps fs hvalid)
  rw [List.nil_append, List.append_nil] at hev
  have hlen : ps.length = (ps.map dropCR).length := by simp
  rw [hscan, hlen, recvTimes_add, hev]
  have hpre : ∀ l ∈ (if ps.map dropCR = [] then ([] : List String) else [""]) ++ [],
      isDataLine l = false := by
    intro l hl
    rw [List.append_nil] at hl
    exact isDataLine_gap _ l hl
  have hlast := recvTimes_noise u rd GoError.EOF 1 _ [] hpre (fun l hl => by cases hl)
  simp only [hlast]
  rfl

/-- C2, amended, at two events and then end of input. -/
theorem recv_events_then_end_of_input_witness :
    (∀ l ∈ eventLines ["\x7b\x7d", "\x7b\"id\":\"a\"\x7d"],
        byteLength l.data < MaxScanTokenSize) ∧
      List.Forall₂ (fun p f => dropCR p ≠ "[DONE]" ∧ sampleUnmarshal (dropCR p) = Except.ok f)
        ["\x7b\x7d", "\x7b\"id\":\"a\"\x7d"] [⟨"", "", 0, "", []⟩, ⟨"a", "", 0, "", []⟩] ∧
      (RecvTimes sampleUnmarshal (["\x7b\x7d", "\x7b\"id\":\"a\"\x7d"].length + 1)
          ⟨bodyReader,
            NewScanner (eventLines ["\x7b\x7d", "\x7b\"id\":\"a\"\x7d"]) GoError.EOF⟩).1 =
        [⟨"", "", 0, "", []⟩, ⟨"a", "", 0, "", []⟩].map fragment ++ [(none, some GoError.EOF)] :=
  have hs : ∀ l ∈ eventLines ["\x7b\x7d", "\x7b\"id\":\"a\"\x7d"],
      byteLength l.data < MaxScanTokenSize := by decide
  have h : List.Forall₂
      (fun p f => dropCR p ≠ "[DONE]" ∧ sampleUnmarshal (dropCR p) = Except.ok f)
      ["\x7b\x7d", "\x7b\"id\":\"a\"\x7d"] [⟨"", "", 0, "", []⟩, ⟨"a", "", 0, "", []⟩] :=
    List.Forall₂.cons ⟨by decide, rfl⟩ (List.Forall₂.cons ⟨by decide, rfl⟩ List.Forall₂.nil)
  ⟨hs, h, recv_events_then_end_of_input sampleUnmarshal bodyReader _ _ hs h⟩

/-- C3, as stated, fails. On a `data: ` line whose payload, the long text, is neither
`[DONE]` nor valid fragment JSON and which is longer than 64 KiB, the call of `Recv` that
reaches the line returns `bufio.ErrTooLong`, which is not the decode error. -/
theorem recv_malformed_event_counterexample :
    sampleUnmarshal longText = Except.error (GoError.other "invalid character") ∧
      (StreamReader.Recv sampleUnmarshal
          ⟨bodyReader, NewScanner ["data: " ++ longText, ""] GoError.EOF⟩).1 =
        (none, some ErrTooLong) ∧
      ErrTooLong ≠ decodeError (GoError.other "invalid character") := by
  exact ⟨sampleUnmarshal_longText,
    recv_long_first sampleUnmarshal bodyReader ("data: " ++ longText) _ GoError.EOF
      (long_tail_size "data: "),
    by decide⟩

/-- C3, amended. A `data: ` line whose payload is neither `[DONE]` nor valid fragment
JSON, after `N` valid events, all these lines shorter than 64 KiB: call `N + 1` of `Recv`,
the one that reaches the line, returns no fragment and the decode error, which is not
`io.EOF`; that call stops at the malformed line, so the lines after it are all still to be
read. -/
theorem recv_malformed_event {ρ : Type} (u : Unmarshal) (rd : ReadCloser ρ) (err : GoError)
    (ps : List String) (fs : List StreamResponse) (bad : String) (e : GoError)
    (tail : List String)
    (hshort : ∀ l ∈ eventLines ps ++ ["data: " ++ bad], byteLength l.data < MaxScanTokenSize)
    (hvalid : List.Forall₂
      (fun p f => dropCR p ≠ "[DONE]" ∧ u (dropCR p) = Except.ok f) ps fs)
    (hbad : dropCR bad ≠ "[DONE]") (herr : u (dropCR bad) = Except.error e) :
    (RecvTimes u (ps.length + 1)
        ⟨rd, NewScanner (eventLines ps ++ ("data: " ++ bad) :: tail) err⟩).1 =
      fs.map fragment ++ [(none, some (decodeError e))] ∧
    decodeError e ≠ GoError.EOF ∧
    (RecvTimes u (ps.length + 1)
        ⟨rd, NewScanner (eventLines ps ++ ("data: " ++ bad) :: tail) err⟩).2.scanner =
      NewScanner tail err := by
  have hsplit : eventLines ps ++ ("data: " ++ bad) :: tail =
      (eventLines ps ++ ["data: " ++ bad]) ++ tail := by simp
  have htoks : (eventLines ps ++ ["data: " ++ bad]).map dropCR ++ (NewScanner tail err).tokens =
      eventLines (ps.map dropCR) ++ ("data: " ++ dropCR bad) :: (NewScanner tail err).tokens := by
    simp [map_dropCR_eventLines, dropCR_data]
  have hmain := recvTimes_events_malformed u rd (NewScanner tail err).err (ps.map dropCR) fs
    (dropCR bad) e (NewScanner tail err).tokens (NewScanner tail err).late
    (forall₂_map_dropCR u ps fs hvalid) hbad herr
  rw [List.length_map] at hmain
  rw [hsplit, newScanner_short_append _ tail err hshort, htoks, hmain]
  exact ⟨rfl, by simp [decodeError], rfl⟩

/-- C3, amended, at one valid event followed by a malformed line and a valid event. -/
theorem recv_malformed_event_witness :
    (∀ l ∈ eventLines ["\x7b\x7d"] ++ ["data: " ++ "oops"],
        byteLength l.data < MaxScanTokenSize) ∧
      List.Forall₂ (fun p f => dropCR p ≠ "[DONE]" ∧ sampleUnmarshal (dropCR p) = Except.ok f)
        ["\x7b\x7d"] [⟨"", "", 0, "", []⟩] ∧
      dropCR "oops" ≠ "[DONE]" ∧
      sampleUnmarshal (dropCR "oops") = Except.error (GoError.other "invalid character") ∧
      ((RecvTimes sampleUnmarshal (["\x7b\x7d"].length + 1)
          ⟨bodyReader,
            NewScanner (eventLines ["\x7b\x7d"] ++ ("data: " ++ "oops") :: ["data: \x7b\x7d"])
              GoError.EOF⟩).1 =
        [⟨"", "", 0, "", []⟩].map fragment ++
          [(none, some (decodeError (GoError.other "invalid character")))] ∧
      decodeError (GoError.other "invalid character") ≠ GoError.EOF ∧
      (RecvTimes sampleUnmarshal (["\x7b\x7d"].length + 1)
          ⟨bodyReader,
            NewScanner (eventLines ["\x7b\x7d"] ++ ("data: " ++ "oops") :: ["data: \x7b\x7d"])
              GoError.EOF⟩).2.scanner = NewScanner ["data: \x7b\x7d"] GoError.EOF) :=
  have hs : ∀ l ∈ eventLines ["\x7b\x7d"] ++ ["data: " ++ "oops"],
      byteLength l.data < MaxScanTokenSize := by decide
  have h : List.Forall₂
      (fun p f => dropCR p ≠ "[DONE]" ∧ sampleUnmarshal (dropCR p) = Except.ok f)
      ["\x7b\x7d"] [⟨"", "", 0, "", []⟩] :=
    List.Forall₂.cons ⟨by decide, rfl⟩ List.Forall₂.nil
  ⟨hs, h, by decide, rfl,
    recv_malformed_event sampleUnmarshal bodyReader GoError.EOF _ _ "oops" _
      ["data: \x7b\x7d"] hs h (by decide) rfl⟩

/-- C4, as stated, fails. On the lines `data: oops`, blank, `data: {}`, blank the first call
of `Recv` fails with the decode error, and the second call returns the fragment of the
event after the malformed line, without an error. -/
theorem recv_after_decode_error_counterexample :
    (StreamReader.Recv sampleUnmarshal malformedThenValid).1 =
        (none, some (decodeError (GoError.other "invalid character"))) ∧
      (StreamReader.Recv sampleUnmarshal
          (StreamReader.Recv sampleUnmarshal malformedThenValid).2).1 =
        (some ⟨"", "", 0, "", []⟩, none) :=
  ⟨rfl, rfl⟩

/-- C4, amended. The call of `Recv` that fails with the decode error at a malformed `data: `
line leaves a decoder that reads on from the line after it, with the same reader and final
error; if no `data: ` line follows the malformed one, every later call fails, returning no
fragment and the error with which the input ends. -/
theorem recv_after_decode_error {ρ : Type} (u : Unmarshal) (rd : ReadCloser ρ)
    (err : GoError) (pre : List String) (bad : String) (e : GoError)
    (tail late : List String)
    (hpre : ∀ l ∈ pre, isDataLine l = false)
    (hbad : bad ≠ "[DONE]") (herr : u bad = Except.error e) :
    StreamReader.Recv u ⟨rd, ⟨pre ++ ("data: " ++ bad) :: tail, err, late⟩⟩ =
        ((none, some (decodeError e)), ⟨rd, ⟨tail, err, late⟩⟩) ∧
      ((∀ l ∈ tail, isDataLine l = false) → (∀ l ∈ late, isDataLine l = false) →
        ∀ k : Nat,
        (RecvTimes u k
            (StreamReader.Recv u ⟨rd, ⟨pre ++ ("data: " ++ bad) :: tail, err, late⟩⟩).2).1 =
          List.replicate k (none, some err)) := by
  have hstep : recvLoop u err (pre ++ ("data: " ++ bad) :: tail) =
      ((none, some (decodeError e)), some tail) := by
    rw [recvLoop_skip u err _ _ hpre, recvLoop_data]
    simp [hbad, herr, decodeError]
  have hrecv := recv_of_some u rd err _ late _ _ hstep
  refine ⟨hrecv, ?_⟩
  intro htail hlate k
  rw [hrecv]
  exact recvTimes_noise u rd err k tail late htail hlate

/-- C4, amended, at a malformed line followed by a comment line and a blank line. -/
theorem recv_after_decode_error_witness :
    (∀ l ∈ [""], isDataLine l = false) ∧ "oops" ≠ "[DONE]" ∧
      sampleUnmarshal "oops" = Except.error (GoError.other "invalid character") ∧
      (StreamReader.Recv sampleUnmarshal
            ⟨bodyReader, ⟨[""] ++ ("data: " ++ "oops") :: [": ping", ""], GoError.EOF, []⟩⟩ =
          ((none, some (decodeError (GoError.other "invalid character"))),
            ⟨bodyReader, ⟨[": ping", ""], GoError.EOF, []⟩⟩) ∧
        ((∀ l ∈ [": ping", ""], isDataLine l = false) →
          (∀ l ∈ ([] : List String), isDataLine l = false) → ∀ k : Nat,
          (RecvTimes sampleUnmarshal k
              (StreamReader.Recv sampleUnmarshal
                ⟨bodyReader, ⟨[""] ++ ("data: " ++ "oops") :: [": ping", ""],
                  GoError.EOF, []⟩⟩).2).1 =
            List.replicate k (none, some GoError.EOF))) :=
  ⟨by decide, by decide, rfl,
    recv_after_decode_error sampleUnmarshal bodyReader GoError.EOF [""] "oops" _
      [": ping", ""] [] (by decide) (by decide) rfl⟩

/-- C5, as stated, fails. On the lines `data: [DONE]`, blank, `data: {}`, blank the first
call of `Recv` signals `io.EOF`, and the second call returns the fragment of the event
after the end marker, without an error. -/
theorem recv_after_done_counterexample :
    (StreamReader.Recv sampleUnmarshal doneThenValid).1 = (none, some GoError.EOF) ∧
      (StreamReader.Recv sampleUnmarshal
          (StreamReader.Recv sampleUnmarshal doneThenValid).2).1 =
        (some ⟨"", "", 0, "", []⟩, none) :=
  ⟨rfl, rfl⟩

/-- C5, amended. The call of `Recv` that signals `io.EOF` at `data: [DONE]` leaves a decoder
that reads on from the line after the marker, with the same reader and final error; if no
`data: ` line follows `[DONE]` and the input ends naturally, every later call returns no
fragment and `io.EOF`. -/
theorem recv_after_done {ρ : Type} (u : Unmarshal) (rd : ReadCloser ρ)
    (err : GoError) (pre tail late : List String)
    (hpre : ∀ l ∈ pre, isDataLine l = false) :
    StreamReader.Recv u ⟨rd, ⟨pre ++ "data: [DONE]" :: tail, err, late⟩⟩ =
        ((none, some GoError.EOF), ⟨rd, ⟨tail, err, late⟩⟩) ∧
      ((∀ l ∈ tail, isDataLine l = false) → (∀ l ∈ late, isDataLine l = false) →
        err = GoError.EOF → ∀ k : Nat,
        (RecvTimes u k
            (StreamReader.Recv u ⟨rd, ⟨pre ++ "data: [DONE]" :: tail, err, late⟩⟩).2).1 =
          List.replicate k (none, some GoError.EOF)) := by
  have hstep : recvLoop u err (pre ++ "data: [DONE]" :: tail) =
      ((none, some GoError.EOF), some tail) := by
    rw [recvLoop_skip u err _ _ hpre]
    have := recvLoop_data u err "[DONE]" tail
    simpa using this
  have hrecv := recv_of_some u rd err _ late _ _ hstep
  refine ⟨hrecv, ?_⟩
  intro htail hlate herr k
  rw [hrecv]
  have := recvTimes_noise u rd err k tail late htail hlate
  rw [herr] at this
  rw [herr]
  exact this

/-- C5, amended, at the end marker preceded and followed by a blank line. -/
theorem recv_after_done_witness :
    (∀ l ∈ [""], isDataLine l = false) ∧
      (StreamReader.Recv sampleUnmarshal
            ⟨bodyReader, ⟨[""] ++ "data: [DONE]" :: [""], GoError.EOF, []⟩⟩ =
          ((none, some GoError.EOF), ⟨bodyReader, ⟨[""], GoError.EOF, []⟩⟩) ∧
        ((∀ l ∈ [""], isDataLine l = false) →
          (∀ l ∈ ([] : List String), isDataLine l = false) →
          GoError.EOF = GoError.EOF → ∀ k : Nat,
          (RecvTimes sampleUnmarshal k
              (StreamReader.Recv sampleUnmarshal
                ⟨bodyReader, ⟨[""] ++ "data: [DONE]" :: [""], GoError.EOF, []⟩⟩).2).1 =
            List.replicate k (none, some GoError.EOF))) :=
  ⟨by decide,
    recv_after_done sampleUnmarshal bodyReader GoError.EOF [""] [""] [] (by decide)⟩

/-- C6, as stated, fails. On a comment line longer than 64 KiB followed by a valid event the
first call of `Recv` returns `bufio.ErrTooLong`, while on the list left when the comment
line is deleted it returns the fragment of the event. -/
theorem recv_ignores_noise_counterexample :
    [":" ++ longText, "data: \x7b\x7d"].filter isDataLine = ["data: \x7b\x7d"] ∧
      (StreamReader.Recv sampleUnmarshal
          ⟨bodyReader, NewScanner [":" ++ longText, "data: \x7b\x7d"] GoError.EOF⟩).1 =
        (none, some ErrTooLong) ∧
      (StreamReader.Recv sampleUnmarshal
          ⟨bodyReader, NewScanner ["data: \x7b\x7d"] GoError.EOF⟩).1 =
        (some ⟨"", "", 0, "", []⟩, none) := by
  refine ⟨?_, ?_, rfl⟩
  · have hc : isDataLine (":" ++ longText) = false := hasPrefix_colon longText
    have hd : isDataLine "data: \x7b\x7d" = true := by decide
    simp only [List.filter, hc, hd]
  · exact recv_long_first sampleUnmarshal bodyReader (":" ++ longText) _ GoError.EOF
      (long_tail_size ":")

/-- C6, amended. For every list of lines in which every blank line and every line that does
not begin with `data: ` is shorter than 64 KiB, and every number of calls, the successive
results of `Recv` are those obtained on the list from which these lines have been
deleted. -/
theorem recv_ignores_noise {ρ : Type} (u : Unmarshal) (rd : ReadCloser ρ) (err : GoError)
    (lines : List String) (k : Nat)
    (hnoise : ∀ l ∈ lines, isDataLine l = false → byteLength l.data < MaxScanTokenSize) :
    (RecvTimes u k ⟨rd, NewScanner lines err⟩).1 =
      (RecvTimes u k ⟨rd, NewScanner (lines.filter isDataLine) err⟩).1 := by
  rw [newScanner_filter lines err hnoise]
  exact recvTimes_filter u rd (NewScanner lines err).err (NewScanner lines err).tokens
    (NewScanner lines err).late k

/-- C6, amended, at a comment line, an event, blank lines and a second event. -/
theorem recv_ignores_noise_witness :
    (∀ l ∈ [": ping", "data: \x7b\x7d", "", "", "event: x", "data: \x7b\"id\":\"a\"\x7d"],
        isDataLine l = false → byteLength l.data < MaxScanTokenSize) ∧
      (RecvTimes sampleUnmarshal 3
          ⟨bodyReader,
            NewScanner [": ping", "data: \x7b\x7d", "", "", "event: x",
              "data: \x7b\"id\":\"a\"\x7d"] GoError.EOF⟩).1 =
        (RecvTimes sampleUnmarshal 3
          ⟨bodyReader,
            NewScanner
              ([": ping", "data: \x7b\x7d", "", "", "event: x",
                "data: \x7b\"id\":\"a\"\x7d"].filter isDataLine) GoError.EOF⟩).1 :=
  ⟨by decide,
    recv_ignores_noise sampleUnmarshal bodyReader GoError.EOF _ 3 (by decide)⟩

/-- C7. When the read fails with an error `e` other than `io.EOF` and no `data: ` line is
left before the failure, `Recv` returns no fragment and `e` itself, which is not `io.EOF`. -/
theorem recv_read_error {ρ : Type} (u : Unmarshal) (rd : ReadCloser ρ) (e : GoError)
    (pre late : List String) (hpre : ∀ l ∈ pre, isDataLine l = false)
    (he : e ≠ GoError.EOF) :
    (StreamReader.Recv u ⟨rd, ⟨pre, e, late⟩⟩).1 = (none, some e) ∧
      (StreamReader.Recv u ⟨rd, ⟨pre, e, late⟩⟩).1.2 ≠ some GoError.EOF := by
  have hrecv := recv_of_none u rd e pre late _ (recvLoop_all_noise u e pre hpre)
  rw [hrecv]
  exact ⟨rfl, by simp [he]⟩

/-- C7 at a connection reset after a blank line and a comment line. -/
theorem recv_read_error_witness :
    (∀ l ∈ ["", ": ping"], isDataLine l = false) ∧
      GoError.other "connection reset by peer" ≠ GoError.EOF ∧
      ((StreamReader.Recv sampleUnmarshal
          ⟨bodyReader, ⟨["", ": ping"], GoError.other "connection reset by peer", []⟩⟩).1 =
        (none, some (GoError.other "connection reset by peer")) ∧
      (StreamReader.Recv sampleUnmarshal
          ⟨bodyReader, ⟨["", ": ping"], GoError.other "connection reset by peer", []⟩⟩).1.2 ≠
        some GoError.EOF) :=
  ⟨by decide, by decide,
    recv_read_error sampleUnmarshal bodyReader (GoError.other "connection reset by peer")
      ["", ": ping"] [] (by decide) (by decide)⟩

/-- C8, as stated, fails. On a decoder whose reader reports a second `Close` as an error,
the first `Close` returns no error and the second returns that error. -/
theorem close_twice_counterexample :
    (StreamReader.Close strictDecoder).1 = none ∧
      (StreamReader.Close (StreamReader.Close strictDecoder).2).1 =
        some (GoError.other "file already closed") :=
  ⟨rfl, rfl⟩

/-- C8, amended. `Close` returns what the `Close` of the underlying reader returns and
leaves the scanner as it is; when a `Close` of the underlying reader after the first returns
no error and changes nothing, a second `Close` of the decoder returns no error and leaves
the decoder unchanged, whatever lines the decoder has read or still holds. -/
theorem close_twice_of_reader {ρ : Type} (s : StreamReader ρ)
    (hreader : ∀ st : ρ, s.reader.closeFn (s.reader.closeFn st).2 =
      (none, (s.reader.closeFn st).2)) :
    (StreamReader.Close s).1 = (s.reader.closeFn s.reader.state).1 ∧
      (StreamReader.Close s).2.scanner = s.scanner ∧
      StreamReader.Close (StreamReader.Close s).2 = (none, (StreamReader.Close s).2) := by
  refine ⟨rfl, rfl, ?_⟩
  simp [StreamReader.Close, hreader]

/-- C8, amended, at a decoder over a reader every `Close` of which succeeds. -/
theorem close_twice_of_reader_witness :
    (∀ st : Bool, bodyDecoder.reader.closeFn (bodyDecoder.reader.closeFn st).2 =
        (none, (bodyDecoder.reader.closeFn st).2)) ∧
      ((StreamReader.Close bodyDecoder).1 =
          (bodyDecoder.reader.closeFn bodyDecoder.reader.state).1 ∧
        (StreamReader.Close bodyDecoder).2.scanner = bodyDecoder.scanner ∧
        StreamReader.Close (StreamReader.Close bodyDecoder).2 =
          (none, (StreamReader.Close bodyDecoder).2)) :=
  ⟨fun _ => rfl, close_twice_of_reader bodyDecoder (fun _ => rfl)⟩


/-! ## Content extraction -/

/-- The loop of `ExtractContent` collects the texts of the qualifying parts, in order. -/
theorem foldl_extractStep (parts : List GoValue) (acc : List String) :
    parts.foldl extractStep acc = acc ++ parts.filterMap partText := by
  induction parts generalizing acc with
  | nil => simp
  | cons part parts ih =>
    have hstep : extractStep acc part = acc ++ (partText part).toList := by
      cases part with
      | map m =>
        simp only [extractStep, partText]
        generalize mapIndex m "type" = ty
        generalize mapIndex m "text" = tx
        cases ty with
        | none => simp
        | some v =>
          cases v <;> cases tx with
          | none => simp
          | some w => cases w <;> simp <;> split <;> simp
      | _ => simp [extractStep, partText]
    rw [List.foldl_cons, ih, hstep]
    cases h : partText part <;> simp [List.filterMap_cons, h]

theorem intercalate_go_eq_foldl (sep : String) (rest : List String) (acc : String) :
    String.intercalate.go acc sep rest =
      rest.foldl (fun result x => result ++ (sep ++ x)) acc := by
  induction rest generalizing acc with
  | nil => rfl
  | cons x rest ih =>
    simp only [String.intercalate.go, List.foldl_cons, ih, String.append_assoc]

/-- The helper `join` joins the strings with the separator between neighbours. -/
theorem join_eq_intercalate (strs : List String) (sep : String) :
    join strs sep = sep.intercalate strs := by
  match strs with
  | [] => rfl
  | [s] => rfl
  | s :: t :: rest =>
    simp only [join, String.intercalate, intercalate_go_eq_foldl]

/-- C9. For a message whose content is a sequence of parts, `ExtractContent` returns `[`,
then the `text` strings of exactly the parts whose type is `text` and whose text is a
string, in their order and joined by one space, then `]`; when no part qualifies the result
is `[]`. -/
theorem extractContent_parts (sprintv : GoValue → String) (role name : String)
    (toolCalls : List ToolCall) (parts : List GoValue) :
    ExtractContent sprintv (some ⟨role, GoValue.slice parts, name, toolCalls⟩) =
        "[" ++ " ".intercalate (parts.filterMap partText) ++ "]" ∧
      ((∀ part ∈ parts, partText part = none) →
        ExtractContent sprintv (some ⟨role, GoValue.slice parts, name, toolCalls⟩) = "[]") := by
  have hmain : ExtractContent sprintv (some ⟨role, GoValue.slice parts, name, toolCalls⟩) =
      "[" ++ " ".intercalate (parts.filterMap partText) ++ "]" := by
    simp only [ExtractContent, foldl_extractStep, join_eq_intercalate, List.nil_append]
  refine ⟨hmain, ?_⟩
  intro hnone
  have hempty : parts.filterMap partText = [] := by
    rw [List.filterMap_eq_nil_iff]
    exact hnone
  rw [hmain, hempty]
  rfl

/-- C9 at the part list text `a`, image, text `b`, which gives `[a b]`, and at a part list
with an image part only, which gives `[]`. -/
theorem extractContent_parts_witness :
    ExtractContent (fun _ => "") (some ⟨"user", GoValue.slice sampleParts, "", []⟩) = "[a b]" ∧
      (∀ part ∈ [GoValue.map [("type", GoValue.str "image_url")]], partText part = none) ∧
      ExtractContent (fun _ => "")
        (some ⟨"user", GoValue.slice [GoValue.map [("type", GoValue.str "image_url")]],
          "", []⟩) = "[]" :=
  have hnone : ∀ part ∈ [GoValue.map [("type", GoValue.str "image_url")]],
      partText part = none := by
    intro part hpart
    rw [List.mem_singleton] at hpart
    rw [hpart]
    rfl
  ⟨(extractContent_parts (fun _ => "") "user" "" [] sampleParts).1, hnone,
    (extractContent_parts (fun _ => "") "user" "" []
      [GoValue.map [("type", GoValue.str "image_url")]]).2 hnone⟩

/-- C10. `ExtractContent` of a message whose content is the string `s` is `s` itself, the
empty string included, and `ExtractContent` of a nil message is the empty string. -/
theorem extractContent_string (sprintv : GoValue → String) (role name : String)
    (toolCalls : List ToolCall) (s : String) :
    ExtractContent sprintv (some ⟨role, GoValue.str s, name, toolCalls⟩) = s ∧
      ExtractContent sprintv (some ⟨role, GoValue.str "", name, toolCalls⟩) = "" ∧
      ExtractContent sprintv none = "" :=
  ⟨rfl, rfl, rfl⟩


/-! ## Validation and error texts -/

/-- The expansion of the format of `ValidationError.Error`. -/
theorem sprintf_validation (f m : String) :
    Sprintf "validation error for field '%s': %s" [FmtArg.s f, FmtArg.s m] =
      "validation error for field '" ++ f ++ "': " ++ m := by
  apply String.ext
  simp [Sprintf, sprintfChars, String.data_append]

/-- The expansion of the format of `APIError.Error`. -/
theorem sprintf_api (c : Int) (t m : String) :
    Sprintf "OpenAI API error (code: %d, type: %s): %s" [FmtArg.d c, FmtArg.s t, FmtArg.s m] =
      "OpenAI API error (code: " ++ toString c ++ ", type: " ++ t ++ "): " ++ m := by
  apply String.ext
  simp [Sprintf, sprintfChars, String.data_append]

/-- On a value that is a number, the test of `ValidateRequest` passes exactly when the value
lies in the interval. -/
theorem rejectsFloat_false_iff (x : Float64) (lo hi : Rat) (hx : x ≠ Float64.nan) :
    rejectsFloat (some x) (Float64.fin lo) (Float64.fin hi) = false ↔ x.inRange lo hi := by
  cases x with
  | nan => exact absurd rfl hx
  | negInf => simp [rejectsFloat, Float64.lt, Float64.inRange]
  | posInf => simp [rejectsFloat, Float64.lt, Float64.inRange]
  | fin q => simp [rejectsFloat, Float64.lt, Float64.inRange, not_lt]

/-- On a parameter that is not a NaN, the test of `ValidateRequest` fires exactly when the
parameter is present and out of range. -/
theorem rejectsFloat_iff (p : Option Float64) (lo hi : Rat) (hp : p ≠ some Float64.nan) :
    rejectsFloat p (Float64.fin lo) (Float64.fin hi) = true ↔ presentOutOfRange p lo hi := by
  cases p with
  | none => simp [rejectsFloat, presentOutOfRange]
  | some x =>
    have hx : x ≠ Float64.nan := fun h => hp (by rw [h])
    have h := rejectsFloat_false_iff x lo hi hx
    constructor
    · intro hr
      refine ⟨x, rfl, fun hin => ?_⟩
      rw [h.mpr hin] at hr
      cases hr
    · rintro ⟨y, hy, hout⟩
      cases hy
      cases hr : rejectsFloat (some x) (Float64.fin lo) (Float64.fin hi)
      · exact absurd (h.mp hr) hout
      · rfl

/-- A parameter that is absent or in range passes the test of `ValidateRequest`. -/
theorem rejectsFloat_of_not_out (p : Option Float64) (lo hi : Rat)
    (h : ¬ presentOutOfRange p lo hi) :
    rejectsFloat p (Float64.fin lo) (Float64.fin hi) = false := by
  cases p with
  | none => rfl
  | some x =>
    have hin : x.inRange lo hi := by
      by_contra hout
      exact h ⟨x, rfl, hout⟩
    cases x with
    | fin q =>
      have hq : lo ≤ q ∧ q ≤ hi := hin
      simp [rejectsFloat, Float64.lt, not_lt, hq.1, hq.2]
    | nan => exact absurd hin (by simp [Float64.inRange])
    | negInf => exact absurd hin (by simp [Float64.inRange])
    | posInf => exact absurd hin (by simp [Float64.inRange])

/-- When neither temperature nor top_p is a NaN, `ValidateRequest` reports the first
offending field in the order model, messages, temperature, top_p: the error cites `model`
when the model is empty; otherwise `messages` when there is no message; otherwise
`temperature` when the temperature is present and out of range; otherwise `top_p` when
top_p is present and out of range. -/
theorem validateRequest_order (req : ChatRequest)
    (htn : req.Temperature ≠ some Float64.nan) (hpn : req.TopP ≠ some Float64.nan) :
    (req.Model = "" →
        ValidateRequest req = some (GoError.validation ⟨"model", "model is required"⟩)) ∧
      (req.Model ≠ "" → req.Messages = [] →
        ValidateRequest req =
          some (GoError.validation ⟨"messages", "at least one message is required"⟩)) ∧
      (req.Model ≠ "" → req.Messages ≠ [] → presentOutOfRange req.Temperature 0 2 →
        ValidateRequest req =
          some (GoError.validation ⟨"temperature", "temperature must be between 0 and 2"⟩)) ∧
      (req.Model ≠ "" → req.Messages ≠ [] → ¬ presentOutOfRange req.Temperature 0 2 →
        presentOutOfRange req.TopP 0 1 →
        ValidateRequest req =
          some (GoError.validation ⟨"top_p", "top_p must be between 0 and 1"⟩)) := by
  refine ⟨?_, ?_, ?_, ?_⟩
  · intro hm
    simp [ValidateRequest, hm]
  · intro hm hmsgs
    simp [ValidateRequest, hm, hmsgs]
  · intro hm hmsgs ht
    have ht1 := (rejectsFloat_iff req.Temperature 0 2 htn).mpr ht
    simp [ValidateRequest, hm, hmsgs, ht1]
  · intro hm hmsgs ht hp
    have ht1 := rejectsFloat_of_not_out req.Temperature 0 2 ht
    have hp1 := (rejectsFloat_iff req.TopP 0 1 hpn).mpr hp
    simp [ValidateRequest, hm, hmsgs, ht1, hp1]

/-- The order of the checks on the request of `TestConfigValidation` with empty model, no
messages, temperature 3.0 and top_p 1.5: it is rejected citing `model`. -/
theorem validateRequest_invalidRequest :
    ValidateRequest invalidRequest =
      some (GoError.validation ⟨"model", "model is required"⟩) :=
  rfl

/-- C11 at a request with a model, a message, a temperature that is not a number and
top_p 1.5. The temperature is present and does not lie in `[0, 2]`, so it is the first
offending field, yet `ValidateRequest` passes over it and cites `top_p`. -/
theorem validateRequest_nan_cites_top_p :
    (sampledRequest (some Float64.nan) (some (Float64.fin (3 / 2)))).Model ≠ "" ∧
      (sampledRequest (some Float64.nan) (some (Float64.fin (3 / 2)))).Messages ≠ [] ∧
      presentOutOfRange
        (sampledRequest (some Float64.nan) (some (Float64.fin (3 / 2)))).Temperature 0 2 ∧
      ValidateRequest (sampledRequest (some Float64.nan) (some (Float64.fin (3 / 2)))) =
        some (GoError.validation ⟨"top_p", "top_p must be between 0 and 1"⟩) ∧
      ValidateRequest (sampledRequest (some Float64.nan) (some (Float64.fin (3 / 2)))) ≠
        some (GoError.validation ⟨"temperature", "temperature must be between 0 and 2"⟩) := by
  have hv : ValidateRequest (sampledRequest (some Float64.nan) (some (Float64.fin (3 / 2)))) =
      some (GoError.validation ⟨"top_p", "top_p must be between 0 and 1"⟩) := by
    simp [ValidateRequest, sampledRequest, rejectsFloat, Float64.lt]
    norm_num
  refine ⟨by decide, by simp [sampledRequest], ⟨Float64.nan, rfl, fun h => h⟩, hv, ?_⟩
  rw [hv]
  decide

/-- When neither temperature nor top_p is a NaN, `ValidateRequest` returns no error exactly
when the Request invariant holds. -/
theorem validateRequest_none_iff (req : ChatRequest)
    (ht : req.Temperature ≠ some Float64.nan) (hp : req.TopP ≠ some Float64.nan) :
    ValidateRequest req = none ↔ RequestInvariant req := by
  have hT : rejectsFloat req.Temperature (Float64.fin 0) (Float64.fin 2) = false ↔
      ∀ t, req.Temperature = some t → t.inRange 0 2 := by
    cases h : req.Temperature with
    | none => simp [rejectsFloat]
    | some t =>
      have hne : t ≠ Float64.nan := fun h0 => ht (by rw [h, h0])
      simp [rejectsFloat_false_iff t 0 2 hne]
  have hP : rejectsFloat req.TopP (Float64.fin 0) (Float64.fin 1) = false ↔
      ∀ p, req.TopP = some p → p.inRange 0 1 := by
    cases h : req.TopP with
    | none => simp [rejectsFloat]
    | some p =>
      have hne : p ≠ Float64.nan := fun h0 => hp (by rw [h, h0])
      simp [rejectsFloat_false_iff p 0 1 hne]
  unfold RequestInvariant
  rw [← hT, ← hP]
  unfold ValidateRequest
  by_cases hm : req.Model = ""
  · simp [hm]
  · by_cases hmsgs : req.Messages = []
    · simp [hm, hmsgs]
    · cases h1 : rejectsFloat req.Temperature (Float64.fin 0) (Float64.fin 2) <;>
        cases h2 : rejectsFloat req.TopP (Float64.fin 0) (Float64.fin 1) <;>
        simp [hm, hmsgs]

/-- C12 at a request with a model, a message and a temperature that is not a number:
`ValidateRequest` returns no error although the Request invariant does not hold, the
temperature not lying in `[0, 2]`. -/
theorem validateRequest_accepts_nan :
    ValidateRequest (sampledRequest (some Float64.nan) none) = none ∧
      ¬ RequestInvariant (sampledRequest (some Float64.nan) none) := by
  constructor
  · rfl
  · intro h
    exact h.2.2.1 Float64.nan rfl

/-- The range checks on the values of `TestConfigValidation`: temperature 3.0 is rejected,
temperature 0.7 with top_p 0.9 is accepted. -/
theorem validateRequest_test_values :
    ValidateRequest (sampledRequest (some (Float64.fin 3)) none) =
        some (GoError.validation ⟨"temperature", "temperature must be between 0 and 2"⟩) ∧
      ValidateRequest
        (sampledRequest (some (Float64.fin (7 / 10))) (some (Float64.fin (9 / 10)))) = none := by
  constructor
  · simp [ValidateRequest, sampledRequest, rejectsFloat, Float64.lt]
    norm_num
  · simp [ValidateRequest, sampledRequest, rejectsFloat, Float64.lt]
    norm_num

/-- C18. `ValidationError.Error` is `validation error for field '<f>': <m>`, and
`APIError.Error` is `OpenAI API error (code: <c>, type: <t>): <m>` with the code in
decimal, as on the values of `TestErrorHandling`. -/
theorem error_texts (f m : String) (c : Int) (t msg : String) :
    ValidationError.Error ⟨f, m⟩ = "validation error for field '" ++ f ++ "': " ++ m ∧
      APIError.Error ⟨c, msg, t⟩ =
        "OpenAI API error (code: " ++ toString c ++ ", type: " ++ t ++ "): " ++ msg ∧
      APIError.Error ⟨400, "Bad Request", "invalid_request_error"⟩ =
        "OpenAI API error (code: 400, type: invalid_request_error): Bad Request" :=
  ⟨sprintf_validation f m, sprintf_api c t msg, by decide⟩

/-! ## The message builder -/

theorem append_elems (s : MessageSlice) (m : Message) :
    (s.append m).elems = s.elems ++ [m] := by
  unfold MessageSlice.append
  cases s.spare <;> rfl

/-- Each of the four methods adds one message, with the role of the method, the content
passed and the name of the call, after the messages the builder holds. -/
theorem build_run (b : MessageBuilder) (call : BuilderCall) :
    (call.run b).Build = b.Build ++ [⟨call.role, GoValue.str call.content, call.name, []⟩] := by
  cases call <;>
    simp [BuilderCall.run, MessageBuilder.Build, MessageBuilder.System, MessageBuilder.User,
      MessageBuilder.Assistant, MessageBuilder.Tool, append_elems, BuilderCall.role,
      BuilderCall.content, BuilderCall.name]

theorem build_runCalls (b : MessageBuilder) (calls : List BuilderCall) :
    (runCalls b calls).Build =
      b.Build ++ calls.map
        (fun call => (⟨call.role, GoValue.str call.content, call.name, []⟩ : Message)) := by
  induction calls generalizing b with
  | nil => simp [runCalls]
  | cons call calls ih =>
    have hstep : runCalls b (call :: calls) = runCalls (call.run b) calls := rfl
    rw [hstep, ih, build_run]
    simp

/-- C19. For every sequence of `System`, `User`, `Assistant` and `Tool` calls on a fresh
builder, `Build` returns one message for each call, in call order, the i-th with the role
of the i-th method called and the content string passed to it. -/
theorem messageBuilder_build (calls : List BuilderCall) :
    (runCalls NewMessageBuilder calls).Build.length = calls.length ∧
      (runCalls NewMessageBuilder calls).Build.map roleAndContent =
        calls.map (fun call => (call.role, GoValue.str call.content)) := by
  rw [build_runCalls]
  constructor
  · simp [NewMessageBuilder, MessageBuilder.Build]
  · simp [NewMessageBuilder, MessageBuilder.Build, roleAndContent, Function.comp_def]

/-- C20. Whatever a builder holds, `Build` right after `Clear` returns no message, and
`Clear` followed by add calls and `Build` returns what a fresh builder returns for those
calls: one message for each call, in order, and none of the messages added before. -/
theorem messageBuilder_clear (b : MessageBuilder) (calls : List BuilderCall) :
    b.Clear.Build = [] ∧
      (runCalls b.Clear calls).Build = (runCalls NewMessageBuilder calls).Build ∧
      (runCalls b.Clear calls).Build.map roleAndContent =
        calls.map (fun call => (call.role, GoValue.str call.content)) := by
  have hclear : b.Clear.Build = [] := rfl
  refine ⟨hclear, ?_, ?_⟩
  · rw [build_runCalls, build_runCalls, hclear]
    rfl
  · rw [build_runCalls, hclear]
    simp [roleAndContent, Function.comp_def]


/-! ## Maps held as association lists -/

theorem find_assocSet_same {β : Type} (m : List (String × β)) (k : String) (v : β) :
    (assocSet m k v).find? (fun kv => kv.1 == k) = some (k, v) := by
  induction m with
  | nil => simp [assocSet]
  | cons kv rest ih =>
    obtain ⟨k1, v1⟩ := kv
    by_cases h : k1 = k
    · simp [assocSet, h]
    · simp [assocSet, h, List.find?_cons, ih]

theorem find_assocSet_other {β : Type} (m : List (String × β)) (k k2 : String) (v : β)
    (h : k2 ≠ k) :
    (assocSet m k v).find? (fun kv => kv.1 == k2) = m.find? (fun kv => kv.1 == k2) := by
  induction m with
  | nil => simp [assocSet, List.find?_cons, Ne.symm h]
  | cons kv rest ih =>
    obtain ⟨k1, v1⟩ := kv
    by_cases h1 : k1 = k
    · subst h1
      simp [assocSet, List.find?_cons, Ne.symm h]
    · simp only [assocSet, h1, if_false, List.find?_cons, ih]

/-- Keys that the loop does not assign keep their binding. -/
theorem find_foldl_assocSet_not_mem {β : Type} (f : String → String)
    (xs : List (String × β)) (m : List (String × β)) (key : String)
    (h : key ∉ xs.map (fun kv => f kv.1)) :
    (xs.foldl (fun m kv => assocSet m (f kv.1) kv.2) m).find? (fun kv => kv.1 == key) =
      m.find? (fun kv => kv.1 == key) := by
  induction xs generalizing m with
  | nil => rfl
  | cons x xs ih =>
    have hx : key ≠ f x.1 := by
      intro h0
      exact h (by simp [h0])
    have hxs : key ∉ xs.map (fun kv => f kv.1) := by
      intro h0
      exact h (by simp only [List.map_cons]; exact List.mem_cons_of_mem _ h0)
    rw [List.foldl_cons, ih _ hxs, find_assocSet_other _ _ _ _ hx]

/-- A key that the loop assigns once ends with the value assigned. -/
theorem find_foldl_assocSet_mem {β : Type} (f : String → String)
    (xs : List (String × β)) (m : List (String × β)) (k : String) (v : β)
    (hnodup : (xs.map (fun kv => f kv.1)).Nodup) (hmem : (k, v) ∈ xs) :
    (xs.foldl (fun m kv => assocSet m (f kv.1) kv.2) m).find? (fun kv => kv.1 == f k) =
      some (f k, v) := by
  induction xs generalizing m with
  | nil => cases hmem
  | cons x xs ih =>
    rw [List.map_cons, List.nodup_cons] at hnodup
    rw [List.foldl_cons]
    rcases List.mem_cons.mp hmem with hx | hx
    · subst hx
      rw [find_foldl_assocSet_not_mem f xs _ (f k) hnodup.1, find_assocSet_same]
    · exact ih _ hnodup.2 hx

/-- A binding of the loop whose key, after `f`, no other binding of the loop shares ends
with the value assigned, wherever it stands in the loop. -/
theorem find_foldl_assocSet_unique {β : Type} (f : String → String)
    (xs : List (String × β)) (m : List (String × β)) (k : String) (v : β)
    (huniq : ∀ kv ∈ xs, f kv.1 = f k → kv = (k, v))
    (h : (k, v) ∈ xs ∨ m.find? (fun kv => kv.1 == f k) = some (f k, v)) :
    (xs.foldl (fun m kv => assocSet m (f kv.1) kv.2) m).find? (fun kv => kv.1 == f k) =
      some (f k, v) := by
  induction xs generalizing m with
  | nil =>
    rcases h with h | h
    · cases h
    · exact h
  | cons x xs ih =>
    have hrest : ∀ kv ∈ xs, f kv.1 = f k → kv = (k, v) :=
      fun kv hkv => huniq kv (List.mem_cons_of_mem _ hkv)
    rw [List.foldl_cons]
    apply ih _ hrest
    by_cases hx : f x.1 = f k
    · have hxe : x = (k, v) := huniq x (List.mem_cons_self _ _) hx
      subst hxe
      exact Or.inr (find_assocSet_same _ _ _)
    · rcases h with h | h
      · rcases List.mem_cons.mp h with h1 | h1
        · exact absurd (by rw [← h1]) hx
        · exact Or.inl h1
      · right
        rw [find_assocSet_other _ _ _ _ (fun h0 => hx h0.symm)]
        exact h

theorem mapIndex_eq_some_mem (m : List (String × GoValue)) (k : String) (v : GoValue)
    (h : mapIndex m k = some v) : (k, v) ∈ m := by
  unfold mapIndex at h
  cases hf : m.find? (fun kv => kv.1 == k) with
  | none => simp [hf] at h
  | some kv =>
    simp [hf] at h
    have hmem := List.mem_of_find?_eq_some hf
    have hkey := List.find?_some hf
    simp at hkey
    obtain ⟨k1, v1⟩ := kv
    simp at hkey h
    subst hkey
    subst h
    exact hmem

/-- The extension mapping wins over the encoded fields on its keys and leaves the other
keys as encoded. -/
theorem mapIndex_mergeExtra (reqMap extra : List (String × GoValue)) :
    ((extra.map Prod.fst).Nodup → ∀ k v, mapIndex extra k = some v →
        mapIndex (mergeExtra reqMap extra) k = some v) ∧
      (∀ k, k ∉ extra.map Prod.fst →
        mapIndex (mergeExtra reqMap extra) k = mapIndex reqMap k) := by
  constructor
  · intro hnodup k v hk
    have hmem := mapIndex_eq_some_mem extra k v hk
    have := find_foldl_assocSet_mem (fun s => s) extra reqMap k v hnodup hmem
    simp only [mapIndex, mergeExtra]
    rw [this]
  · intro k hk
    have := find_foldl_assocSet_not_mem (fun s => s) extra reqMap k hk
    simp only [mapIndex, mergeExtra]
    rw [this]

/-! ## The transport -/

/-- A request that `doChatRequest` hands to the HTTP client is the POST request with the
encoded map as body and the headers of `setHeaders`. -/
theorem doChatRequest_sent {ρ : Type} (env : Env ρ) (c : Client) (req : ChatRequest)
    (r : HTTPRequest) (hr : r ∈ sentRequests (c.doChatRequest env req).2) :
    ∃ jsonData, env.marshal (mergeExtra (env.encode req) req.Extra) = Except.ok jsonData ∧
      env.newRequest (Sprintf "%s/v1/chat/completions" [FmtArg.s c.config.BaseURL]) = none ∧
      r = c.setHeaders env.canon
        ⟨"POST", Sprintf "%s/v1/chat/completions" [FmtArg.s c.config.BaseURL], ⟨[]⟩,
          jsonData⟩ := by
  unfold Client.doChatRequest at hr
  simp only [] at hr
  split at hr
  · simp [sentRequests] at hr
  · rename_i jsonData hm
    refine ⟨jsonData, hm, ?_⟩
    split at hr
    · simp [sentRequests] at hr
    · rename_i hn
      refine ⟨hn, ?_⟩
      split at hr
      · simpa [sentRequests] using hr
      · split at hr
        · simpa [sentRequests] using hr
        · split at hr <;> simpa [sentRequests] using hr

/-- A request that `doChatStreamRequest` hands to the HTTP client is the POST request with
the encoded map as body and the headers of `setHeaders` followed by the `Accept` header. -/
theorem doChatStreamRequest_sent {ρ : Type} (env : Env ρ) (c : Client) (req : ChatRequest)
    (r : HTTPRequest) (hr : r ∈ sentRequests (c.doChatStreamRequest env req).2) :
    ∃ jsonData, env.marshal (mergeExtra (env.encode req) req.Extra) = Except.ok jsonData ∧
      env.newRequest (Sprintf "%s/v1/chat/completions" [FmtArg.s c.config.BaseURL]) = none ∧
      r = { c.setHeaders env.canon
              ⟨"POST", Sprintf "%s/v1/chat/completions" [FmtArg.s c.config.BaseURL], ⟨[]⟩,
                jsonData⟩ with
            Header := (c.setHeaders env.canon
              ⟨"POST", Sprintf "%s/v1/chat/completions" [FmtArg.s c.config.BaseURL], ⟨[]⟩,
                jsonData⟩).Header.Set env.canon "Accept" "text/event-stream" } := by
  unfold Client.doChatStreamRequest at hr
  simp only [] at hr
  split at hr
  · simp [sentRequests] at hr
  · rename_i jsonData hm
    refine ⟨jsonData, hm, ?_⟩
    split at hr
    · simp [sentRequests] at hr
    · rename_i hn
      refine ⟨hn, ?_⟩
      split at hr
      · simpa [sentRequests] using hr
      · split at hr <;> simpa [sentRequests] using hr

/-- C13. The body of a request sent, streaming or not, is the encoding of the map in which
the extension mapping has been merged into the encoded fields of the request; at every key
of `Extra` that map holds the value of `Extra`, also when the key names a structured field,
and at every other key it holds the value encoded from the structured field. -/
theorem payload_extra_precedence {ρ : Type} (env : Env ρ) (c : Client) (req : ChatRequest) :
    (∀ r ∈ sentRequests (c.doChatRequest env req).2,
        env.marshal (mergeExtra (env.encode req) req.Extra) = Except.ok r.Body) ∧
      (∀ r ∈ sentRequests (c.doChatStreamRequest env req).2,
        env.marshal (mergeExtra (env.encode req) req.Extra) = Except.ok r.Body) ∧
      ((req.Extra.map Prod.fst).Nodup → ∀ k v, mapIndex req.Extra k = some v →
        mapIndex (mergeExtra (env.encode req) req.Extra) k = some v) ∧
      (∀ k, k ∉ req.Extra.map Prod.fst →
        mapIndex (mergeExtra (env.encode req) req.Extra) k = mapIndex (env.encode req) k) := by
  refine ⟨?_, ?_, (mapIndex_mergeExtra _ _).1, (mapIndex_mergeExtra _ _).2⟩
  · intro r hr
    obtain ⟨jsonData, hm, _, hreq⟩ := doChatRequest_sent env c req r hr
    rw [hm, hreq]
    rfl
  · intro r hr
    obtain ⟨jsonData, hm, _, hreq⟩ := doChatStreamRequest_sent env c req r hr
    rw [hm, hreq]
    rfl

/-- C13 at a request with model `gpt-4.1` and stream flag set whose `Extra` assigns `model`
and `stream`: the payload holds the values of `Extra` at both keys and the encoded null at
`messages`, and the request sent carries its encoding. -/
theorem payload_extra_precedence_witness :
    ((plainRequest [("model", GoValue.str "other"), ("stream", GoValue.bool false)]).Extra.map
        Prod.fst).Nodup ∧
      mapIndex (plainRequest [("model", GoValue.str "other"), ("stream", GoValue.bool false)]).Extra
        "model" = some (GoValue.str "other") ∧
      mapIndex
        (mergeExtra
          ((sampleEnv 200 "" []).encode
            (plainRequest [("model", GoValue.str "other"), ("stream", GoValue.bool false)]))
          (plainRequest [("model", GoValue.str "other"), ("stream", GoValue.bool false)]).Extra)
        "model" = some (GoValue.str "other") ∧
      (sentRequests ((sampleClient []).doChatRequest (sampleEnv 200 "" [])
          (plainRequest [("model", GoValue.str "other"), ("stream", GoValue.bool false)])).2).map
        (fun r => r.Body) =
        ["\x7b\"messages\":null,\"model\":\"other\",\"stream\":false\x7d"] :=
  ⟨by decide, rfl,
    (payload_extra_precedence (sampleEnv 200 "" []) (sampleClient [])
      (plainRequest [("model", GoValue.str "other"), ("stream", GoValue.bool false)])).2.2.1
      (by decide) "model" (GoValue.str "other") rfl,
    by decide⟩


theorem foldl_set_entries (canon : String → String) (hs : List (String × String))
    (h : Header) :
    (hs.foldl (fun h kv => h.Set canon kv.1 kv.2) h).entries =
      hs.foldl (fun m kv => assocSet m (canon kv.1) kv.2) h.entries := by
  induction hs generalizing h with
  | nil => rfl
  | cons x xs ih =>
    rw [List.foldl_cons, List.foldl_cons, ih]
    rfl

theorem get_set_same (canon : String → String) (h : Header) (k v : String) :
    (h.Set canon k v).Get canon k = v := by
  simp only [Header.Get, Header.Set, find_assocSet_same]

theorem get_set_other (canon : String → String) (h : Header) (k k2 v : String)
    (hne : canon k2 ≠ canon k) :
    (h.Set canon k v).Get canon k2 = h.Get canon k2 := by
  simp only [Header.Get, Header.Set, find_assocSet_other _ _ _ _ hne]

/-- After `setHeaders` a configured header is there with its value, provided no other
configured key has the canonical form of its key. -/
theorem setHeaders_get (canon : String → String) (c : Client) (r0 : HTTPRequest)
    (k v : String)
    (hone : ∀ kv ∈ c.config.Headers, canon kv.1 = canon k → kv = (k, v))
    (hmem : (k, v) ∈ c.config.Headers) :
    (c.setHeaders canon r0).Header.Get canon k = v := by
  simp only [Client.setHeaders, Header.Get, foldl_set_entries]
  rw [find_foldl_assocSet_unique canon _ _ k v hone (Or.inl hmem)]

/-- C14, as stated, fails. A configured `Accept` header is replaced by `text/event-stream`
in a streaming request; and of two configured keys with one canonical form, `x-test` and
`X-Test`, the request carries the value ranged over last under both, whichever the order. -/
theorem custom_headers_counterexample :
    (sentRequests ((sampleClient [("Accept", "application/json")]).doChatStreamRequest
          (sampleEnv 200 "" []) (plainRequest [])).2).map
        (fun r => r.Header.Get CanonicalMIMEHeaderKey "Accept") = ["text/event-stream"] ∧
      (sentRequests ((sampleClient [("x-test", "1"), ("X-Test", "2")]).doChatRequest
          (sampleEnv 200 "" []) (plainRequest [])).2).map
        (fun r => r.Header.Get CanonicalMIMEHeaderKey "x-test") = ["2"] ∧
      (sentRequests ((sampleClient [("X-Test", "2"), ("x-test", "1")]).doChatRequest
          (sampleEnv 200 "" []) (plainRequest [])).2).map
        (fun r => r.Header.Get CanonicalMIMEHeaderKey "X-Test") = ["1"] :=
  ⟨by decide, by decide, by decide⟩

/-- C14, amended. For a configured header `(k, v)` whose canonical key no other configured
key shares, whatever the other configured keys are: a non-streaming request handed to the
HTTP client carries `k` with value `v`, also when `k` is `Content-Type` or `Authorization`;
so does a streaming request unless `k` is a spelling of `Accept`; and a streaming request
always carries `Accept: text/event-stream`, which is set after the configured headers. -/
theorem custom_headers {ρ : Type} (env : Env ρ) (c : Client) (req : ChatRequest)
    (k v : String)
    (hone : ∀ kv ∈ c.config.Headers, env.canon kv.1 = env.canon k → kv = (k, v))
    (hmem : (k, v) ∈ c.config.Headers) :
    (∀ r ∈ sentRequests (c.doChatRequest env req).2, r.Header.Get env.canon k = v) ∧
      (env.canon k ≠ env.canon "Accept" →
        ∀ r ∈ sentRequests (c.doChatStreamRequest env req).2, r.Header.Get env.canon k = v) ∧
      (∀ r ∈ sentRequests (c.doChatStreamRequest env req).2,
        r.Header.Get env.canon "Accept" = "text/event-stream") := by
  refine ⟨?_, ?_, ?_⟩
  · intro r hr
    obtain ⟨jsonData, _, _, hreq⟩ := doChatRequest_sent env c req r hr
    rw [hreq]
    exact setHeaders_get env.canon c _ k v hone hmem
  · intro hk r hr
    obtain ⟨jsonData, _, _, hreq⟩ := doChatStreamRequest_sent env c req r hr
    rw [hreq]
    simp only []
    rw [get_set_other env.canon _ "Accept" k _ hk]
    exact setHeaders_get env.canon c _ k v hone hmem
  · intro r hr
    obtain ⟨jsonData, _, _, hreq⟩ := doChatStreamRequest_sent env c req r hr
    rw [hreq]
    exact get_set_same env.canon _ "Accept" _

/-- C14, amended, at the configured headers `x-a: 1`, `X-A: 2` and `X-B: 3`, of which the
first two share a canonical key: both requests carry `X-B: 3`. -/
theorem custom_headers_witness :
    (∀ kv ∈ (sampleClient [("x-a", "1"), ("X-A", "2"), ("X-B", "3")]).config.Headers,
        (sampleEnv 200 "" []).canon kv.1 = (sampleEnv 200 "" []).canon "X-B" →
          kv = ("X-B", "3")) ∧
      (("X-B", "3") ∈
        (sampleClient [("x-a", "1"), ("X-A", "2"), ("X-B", "3")]).config.Headers) ∧
      (sampleEnv 200 "" []).canon "x-a" = (sampleEnv 200 "" []).canon "X-A" ∧
      (sentRequests
          ((sampleClient [("x-a", "1"), ("X-A", "2"), ("X-B", "3")]).doChatRequest
            (sampleEnv 200 "" []) (plainRequest [])).2).map
        (fun r => r.Header.Get CanonicalMIMEHeaderKey "X-B") = ["3"] ∧
      (∀ r ∈ sentRequests
          ((sampleClient [("x-a", "1"), ("X-A", "2"), ("X-B", "3")]).doChatRequest
            (sampleEnv 200 "" []) (plainRequest [])).2,
        r.Header.Get (sampleEnv 200 "" []).canon "X-B" = "3") ∧
      (∀ r ∈ sentRequests
          ((sampleClient [("x-a", "1"), ("X-A", "2"), ("X-B", "3")]).doChatStreamRequest
            (sampleEnv 200 "" []) (plainRequest [])).2,
        r.Header.Get (sampleEnv 200 "" []).canon "X-B" = "3") :=
  ⟨by decide, by decide, by decide, by decide,
    (custom_headers (sampleEnv 200 "" [])
      (sampleClient [("x-a", "1"), ("X-A", "2"), ("X-B", "3")])
      (plainRequest []) "X-B" "3" (by decide) (by decide)).1,
    (custom_headers (sampleEnv 200 "" [])
      (sampleClient [("x-a", "1"), ("X-A", "2"), ("X-B", "3")])
      (plainRequest []) "X-B" "3" (by decide) (by decide)).2.1 (by decide)⟩


/-- The expansion of the format of the status error. -/
theorem sprintf_status (code : Int) (body : String) :
    Sprintf "API error %d: %s" [FmtArg.d code, FmtArg.s body] =
      "API error " ++ toString code ++ ": " ++ body := by
  apply String.ext
  simp [Sprintf, sprintfChars, String.data_append]

/-- C15, as stated, fails. On a response with status 201 and body `created` both calls fail
on account of the status, and the error is a plain error, not an `APIError`. -/
theorem status_check_counterexample :
    ((sampleClient []).doChatRequest (sampleEnv 201 "created" []) (plainRequest [])).1 =
        (none, some (GoError.other "API error 201: created")) ∧
      ((sampleClient []).doChatStreamRequest (sampleEnv 201 "created" [])
          (plainRequest [])).1.2 = some (GoError.other "API error 201: created") ∧
      ∀ e : APIError, GoError.other "API error 201: created" ≠ GoError.api e :=
  ⟨rfl, rfl, fun _ h => by cases h⟩

/-- C15, amended. When the HTTP client answers the request sent with a response, the call
fails on account of the status exactly when the status is not 200; the failure is the
plain error `API error <status>: <body>`, with the status in decimal and the raw body, and
for a streaming call no decoder is returned with it. With status 200 a non-streaming call
returns what decoding the body gives, and a streaming call returns a decoder over the body
and no error. -/
theorem status_check {ρ : Type} (env : Env ρ) (c : Client) (req : ChatRequest)
    (r : HTTPRequest) (resp : HTTPResponse ρ)
    (hsent : r ∈ sentRequests (c.doChatRequest env req).2)
    (hresp : env.roundTrip r = Except.ok resp)
    (rs : HTTPRequest) (resps : HTTPResponse ρ)
    (hsents : rs ∈ sentRequests (c.doChatStreamRequest env req).2)
    (hresps : env.roundTrip rs = Except.ok resps) :
    (resp.StatusCode ≠ 200 ↔
        (c.doChatRequest env req).1 =
          (none, some (statusError resp.StatusCode resp.Body.text))) ∧
      (resp.StatusCode = 200 →
        (c.doChatRequest env req).1 =
          match env.decode resp.Body.text with
          | Except.error err => (none, some (GoError.wrap "failed to decode response: " err))
          | Except.ok response => (some response, none)) ∧
      (resps.StatusCode ≠ 200 ↔
        (c.doChatStreamRequest env req).1 =
          (none, some (statusError resps.StatusCode resps.Body.text))) ∧
      (resps.StatusCode = 200 →
        (c.doChatStreamRequest env req).1 =
          (some ⟨resps.Body.reader, NewScanner resps.Body.lines resps.Body.readErr⟩, none)) := by
  obtain ⟨jsonData, hm, hn, hreq⟩ := doChatRequest_sent env c req r hsent
  obtain ⟨jsonDatas, hms, hns, hreqs⟩ := doChatStreamRequest_sent env c req rs hsents
  rw [hreq] at hresp
  rw [hreqs] at hresps
  have hplain : resp.StatusCode = 200 →
      (c.doChatRequest env req).1 =
        match env.decode resp.Body.text with
        | Except.error err => (none, some (GoError.wrap "failed to decode response: " err))
        | Except.ok response => (some response, none) := by
    intro h200
    unfold Client.doChatRequest
    simp only [hm, hn, hresp, h200]
    cases env.decode resp.Body.text <;> simp
  have hstream : resps.StatusCode = 200 →
      (c.doChatStreamRequest env req).1 =
        (some ⟨resps.Body.reader, NewScanner resps.Body.lines resps.Body.readErr⟩, none) := by
    intro h200
    unfold Client.doChatStreamRequest
    simp only [hms, hns, hresps, h200]
    simp
  refine ⟨⟨?_, ?_⟩, hplain, ⟨?_, ?_⟩, hstream⟩
  · intro hne
    unfold Client.doChatRequest
    simp only [hm, hn, hresp]
    simp [hne, statusError, sprintf_status]
  · intro hres h200
    rw [hplain h200] at hres
    cases hd : env.decode resp.Body.text with
    | error err => simp [hd, statusError] at hres
    | ok response => simp [hd] at hres
  · intro hne
    unfold Client.doChatStreamRequest
    simp only [hms, hns, hresps]
    simp [hne, statusError, sprintf_status]
  · intro hres h200
    rw [hstream h200] at hres
    simp at hres


/-- C15, amended, at status 404 with body `not found`, where both calls fail with the
status error, and at status 200, where the body is decoded and a decoder is returned. -/
theorem status_check_witness :
    ((sampleClient []).doChatRequest (sampleEnv 404 "not found" []) (plainRequest [])).1 =
        (none, some (statusError 404 "not found")) ∧
      ((sampleClient []).doChatStreamRequest (sampleEnv 404 "not found" [])
          (plainRequest [])).1 = (none, some (statusError 404 "not found")) ∧
      ((sampleClient []).doChatRequest (sampleEnv 200 "\x7b\"id\":\"r1\"\x7d" [])
          (plainRequest [])).1 = (some sampleResponse, none) ∧
      ((sampleClient []).doChatStreamRequest (sampleEnv 200 "" ["data: [DONE]"])
          (plainRequest [])).1 =
        (some ⟨bodyReader, NewScanner ["data: [DONE]"] GoError.EOF⟩, none) :=
  ⟨(status_check (sampleEnv 404 "not found" []) (sampleClient []) (plainRequest [])
      _ _ (List.mem_cons_self _ _) rfl _ _ (List.mem_cons_self _ _) rfl).1.mp (by decide),
    (status_check (sampleEnv 404 "not found" []) (sampleClient []) (plainRequest [])
      _ _ (List.mem_cons_self _ _) rfl _ _ (List.mem_cons_self _ _) rfl).2.2.1.mp (by decide),
    (status_check (sampleEnv 200 "\x7b\"id\":\"r1\"\x7d" []) (sampleClient []) (plainRequest [])
      _ _ (List.mem_cons_self _ _) rfl _ _ (List.mem_cons_self _ _) rfl).2.1 rfl,
    (status_check (sampleEnv 200 "" ["data: [DONE]"]) (sampleClient []) (plainRequest [])
      _ _ (List.mem_cons_self _ _) rfl _ _ (List.mem_cons_self _ _) rfl).2.2.2 rfl⟩

/-- C16, as stated, fails. The request without model and messages is rejected by
`ValidateRequest`, yet `ChatCompletion` and `ChatCompletionStream` each hand one request to
the HTTP client and return the server's answer, not a validation error. -/
theorem chat_calls_validation_counterexample :
    ValidateRequest emptyRequest =
        some (GoError.validation ⟨"model", "model is required"⟩) ∧
      ((sampleClient []).ChatCompletion (sampleEnv 200 "\x7b\"id\":\"r1\"\x7d" [])
          emptyRequest).1 = (some sampleResponse, none) ∧
      (sentRequests ((sampleClient []).ChatCompletion (sampleEnv 200 "\x7b\"id\":\"r1\"\x7d" [])
          emptyRequest).2).length = 1 ∧
      ((sampleClient []).ChatCompletionStream (sampleEnv 200 "" ["data: [DONE]"])
          emptyRequest).1.1.2 = none ∧
      (sentRequests ((sampleClient []).ChatCompletionStream (sampleEnv 200 "" ["data: [DONE]"])
          emptyRequest).1.2).length = 1 :=
  ⟨rfl, rfl, rfl, rfl, rfl⟩

/-- The error of `doChatRequest` is never a validation error. -/
theorem doChatRequest_not_validation {ρ : Type} (env : Env ρ) (c : Client)
    (req : ChatRequest) (e : ValidationError) :
    (c.doChatRequest env req).1.2 ≠ some (GoError.validation e) := by
  unfold Client.doChatRequest
  simp only []
  split
  · simp
  · split
    · simp
    · split
      · simp
      · split
        · simp
        · split <;> simp

/-- The error of `doChatStreamRequest` is never a validation error. -/
theorem doChatStreamRequest_not_validation {ρ : Type} (env : Env ρ) (c : Client)
    (req : ChatRequest) (e : ValidationError) :
    (c.doChatStreamRequest env req).1.2 ≠ some (GoError.validation e) := by
  unfold Client.doChatStreamRequest
  simp only []
  split
  · simp
  · split
    · simp
    · split
      · simp
      · split <;> simp

/-- When the payload is encoded and the request created, `doChatRequest` hands exactly one
request to the HTTP client. -/
theorem doChatRequest_sends_one {ρ : Type} (env : Env ρ) (c : Client) (req : ChatRequest)
    (jsonData : String)
    (hm : env.marshal (mergeExtra (env.encode req) req.Extra) = Except.ok jsonData)
    (hn : env.newRequest (Sprintf "%s/v1/chat/completions" [FmtArg.s c.config.BaseURL]) = none) :
    (sentRequests (c.doChatRequest env req).2).length = 1 := by
  unfold Client.doChatRequest
  simp only [hm, hn]
  split
  · rfl
  · split
    · rfl
    · split <;> rfl

/-- When the payload is encoded and the request created, `doChatStreamRequest` hands
exactly one request to the HTTP client. -/
theorem doChatStreamRequest_sends_one {ρ : Type} (env : Env ρ) (c : Client)
    (req : ChatRequest) (jsonData : String)
    (hm : env.marshal (mergeExtra (env.encode req) req.Extra) = Except.ok jsonData)
    (hn : env.newRequest (Sprintf "%s/v1/chat/completions" [FmtArg.s c.config.BaseURL]) = none) :
    (sentRequests (c.doChatStreamRequest env req).2).length = 1 := by
  unfold Client.doChatStreamRequest
  simp only [hm, hn]
  split
  · rfl
  · split <;> rfl

/-- C16, amended. `ChatCompletion` and `ChatCompletionStream` do not validate: whatever
`ValidateRequest` says of the request, the error they return is never a validation error,
`ChatCompletion` on a request whose stream flag is not true is `doChatRequest`, and
whenever the payload is encoded and the HTTP request created each of them hands exactly one
request to the HTTP client. -/
theorem chat_calls_do_not_validate {ρ : Type} (env : Env ρ) (c : Client)
    (req : ChatRequest) :
    (∀ e : ValidationError, (c.ChatCompletion env req).1.2 ≠ some (GoError.validation e)) ∧
      (∀ e : ValidationError,
        (c.ChatCompletionStream env req).1.1.2 ≠ some (GoError.validation e)) ∧
      (req.Stream ≠ some true → c.ChatCompletion env req = c.doChatRequest env req) ∧
      (req.Stream ≠ some true →
        ∀ jsonData, env.marshal (mergeExtra (env.encode req) req.Extra) = Except.ok jsonData →
        env.newRequest (Sprintf "%s/v1/chat/completions" [FmtArg.s c.config.BaseURL]) = none →
        (sentRequests (c.ChatCompletion env req).2).length = 1) ∧
      (∀ jsonData,
        env.marshal (mergeExtra (env.encode { req with Stream := some true }) req.Extra) =
          Except.ok jsonData →
        env.newRequest (Sprintf "%s/v1/chat/completions" [FmtArg.s c.config.BaseURL]) = none →
        (sentRequests (c.ChatCompletionStream env req).1.2).length = 1) := by
  refine ⟨?_, ?_, ?_, ?_, ?_⟩
  · intro e
    unfold Client.ChatCompletion
    split
    · simp
    · exact doChatRequest_not_validation env c req e
  · intro e
    exact doChatStreamRequest_not_validation env c _ e
  · intro hs
    simp [Client.ChatCompletion, hs]
  · intro hs jsonData hm hn
    simp only [Client.ChatCompletion, hs, if_false]
    exact doChatRequest_sends_one env c req jsonData hm hn
  · intro jsonData hm hn
    exact doChatStreamRequest_sends_one env c _ jsonData hm hn

/-- C16, amended, at the request without model and messages, which `ValidateRequest`
rejects and both calls send. -/
theorem chat_calls_do_not_validate_witness :
    ValidateRequest emptyRequest ≠ none ∧ emptyRequest.Stream ≠ some true ∧
      (sentRequests ((sampleClient []).ChatCompletion (sampleEnv 200 "" []) emptyRequest).2).length
        = 1 ∧
      (sentRequests
        ((sampleClient []).ChatCompletionStream (sampleEnv 200 "" []) emptyRequest).1.2).length
        = 1 :=
  ⟨by decide, by decide,
    (chat_calls_do_not_validate (sampleEnv 200 "" []) (sampleClient []) emptyRequest).2.2.2.1
      (by decide) _ rfl rfl,
    (chat_calls_do_not_validate (sampleEnv 200 "" []) (sampleClient []) emptyRequest).2.2.2.2
      _ rfl rfl⟩

/-! ## Content of any shape -/

/-- C17. `ExtractContent` is a total function into strings. For content that is neither a
string nor a part list it returns the default textual representation of the content. In a
part list, an element that is not a map, a map whose `type` is missing or not a string (a
map or a slice, say), and a map whose `text` is missing or not a string add nothing. -/
theorem extractContent_any_shape (sprintv : GoValue → String) (role name : String)
    (toolCalls : List ToolCall) (content : GoValue) :
    ((∀ s, content ≠ GoValue.str s) → (∀ parts, content ≠ GoValue.slice parts) →
        ExtractContent sprintv (some ⟨role, content, name, toolCalls⟩) = sprintv content) ∧
      (∀ acc part, (∀ m, part ≠ GoValue.map m) → extractStep acc part = acc) ∧
      (∀ acc m, (∀ s, mapIndex m "type" ≠ some (GoValue.str s)) →
        extractStep acc (GoValue.map m) = acc) ∧
      (∀ acc m, (∀ s, mapIndex m "text" ≠ some (GoValue.str s)) →
        extractStep acc (GoValue.map m) = acc) := by
  refine ⟨?_, ?_, ?_, ?_⟩
  · intro hstr hslice
    cases content with
    | str s => exact absurd rfl (hstr s)
    | slice parts => exact absurd rfl (hslice parts)
    | _ => rfl
  · intro acc part hpart
    cases part with
    | map m => exact absurd rfl (hpart m)
    | _ => rfl
  · intro acc m hty
    show (match mapIndex m "type" with
      | some (GoValue.str ty) =>
        if ty = "text" then
          match mapIndex m "text" with
          | some (GoValue.str text) => acc ++ [text]
          | _ => acc
        else acc
      | _ => acc) = acc
    cases h : mapIndex m "type" with
    | none => rfl
    | some v =>
      cases v with
      | str s => exact absurd h (hty s)
      | _ => rfl
  · intro acc m htx
    show (match mapIndex m "type" with
      | some (GoValue.str ty) =>
        if ty = "text" then
          match mapIndex m "text" with
          | some (GoValue.str text) => acc ++ [text]
          | _ => acc
        else acc
      | _ => acc) = acc
    cases h : mapIndex m "type" with
    | none => rfl
    | some v =>
      cases v with
      | str s =>
        show (if s = "text" then
          match mapIndex m "text" with
          | some (GoValue.str text) => acc ++ [text]
          | _ => acc
          else acc) = acc
        split
        · cases h2 : mapIndex m "text" with
          | none => rfl
          | some w =>
            cases w with
            | str t => exact absurd h2 (htx t)
            | _ => rfl
        · rfl
      | _ => rfl

/-- C17 at the integer content 42, returned as `42`, and at a part list holding a string, a
map whose `type` is a map, and a text part without `text`, which gives `[]`. -/
theorem extractContent_any_shape_witness :
    (∀ s, GoValue.int 42 ≠ GoValue.str s) ∧ (∀ parts, GoValue.int 42 ≠ GoValue.slice parts) ∧
      ExtractContent scalarSprintv (some ⟨"user", GoValue.int 42, "", []⟩) = "42" ∧
      ExtractContent scalarSprintv
        (some ⟨"user",
          GoValue.slice [GoValue.str "x", GoValue.map [("type", GoValue.map [])],
            GoValue.map [("type", GoValue.str "text")]], "", []⟩) = "[]" :=
  ⟨fun _ h => GoValue.noConfusion h, fun _ h => GoValue.noConfusion h,
    (extractContent_any_shape scalarSprintv "user" "" [] (GoValue.int 42)).1
      (fun _ h => GoValue.noConfusion h) (fun _ h => GoValue.noConfusion h),
    rfl⟩

/-! ## The tool builder -/

/-- Each of the three methods adds one tool, tagged `function` and named after the call,
behind the tools the builder holds. -/
theorem toolBuild_run (tb : ToolBuilder) (call : ToolBuilderCall) :
    (call.run tb).Build.map typeAndName =
      tb.Build.map typeAndName ++ [("function", call.functionName)] := by
  cases call <;>
    simp [ToolBuilderCall.run, ToolBuilder.Build, ToolBuilder.AddFunction,
      ToolBuilder.AddWeatherFunction, ToolBuilder.AddSearchFunction, typeAndName,
      ToolBuilderCall.functionName]

theorem toolBuild_runToolCalls (tb : ToolBuilder) (calls : List ToolBuilderCall) :
    (runToolCalls tb calls).Build.map typeAndName =
      tb.Build.map typeAndName ++ calls.map (fun call => ("function", call.functionName)) := by
  induction calls generalizing tb with
  | nil => simp [runToolCalls]
  | cons call calls ih =>
    have hstep : runToolCalls tb (call :: calls) = runToolCalls (call.run tb) calls := rfl
    rw [hstep, ih, toolBuild_run]
    simp

/-- C21. For every sequence of `AddFunction`, `AddWeatherFunction` and `AddSearchFunction`
calls on a fresh tool builder, `Build` returns one tool for each call, in call order, each
with type tag `function` and with the name passed to `AddFunction`, `get_weather` for
`AddWeatherFunction`, `web_search` for `AddSearchFunction`. -/
theorem toolBuilder_build (calls : List ToolBuilderCall) :
    (runToolCalls NewToolBuilder calls).Build.length = calls.length ∧
      (runToolCalls NewToolBuilder calls).Build.map typeAndName =
        calls.map (fun call => ("function", call.functionName)) := by
  have hmap : (runToolCalls NewToolBuilder calls).Build.map typeAndName =
      calls.map (fun call => ("function", call.functionName)) := by
    rw [toolBuild_runToolCalls]
    simp [NewToolBuilder, ToolBuilder.Build]
  refine ⟨?_, hmap⟩
  have hlen := congrArg List.length hmap
  simpa using hlen

/-! ## Configuration -/

/-- C22. For every client and every configuration, `GetConfig` after `SetConfig` returns
that configuration, with its base URL, API key and headers, and `SetConfig` of the original
configuration afterwards makes `GetConfig` return the original configuration again. -/
theorem setConfig_getConfig (cl : Client) (config : Config) :
    (cl.SetConfig config).GetConfig = config ∧
      (cl.SetConfig config).GetConfig.BaseURL = config.BaseURL ∧
      (cl.SetConfig config).GetConfig.APIKey = config.APIKey ∧
      (cl.SetConfig config).GetConfig.Headers = config.Headers ∧
      ((cl.SetConfig config).SetConfig cl.GetConfig).GetConfig = cl.GetConfig ∧
      ((NewClient cl.config).SetConfig newConfig).GetConfig.BaseURL = "https://new-api.com" :=
  ⟨rfl, rfl, rfl, rfl, rfl, rfl⟩

/-! ## The builder's own structured content -/

/-- The content that `UserWithImages` builds is a `[]map[string]interface{}`, for which
`ExtractContent` takes its default branch. -/
theorem userWithImages_default (sprintv : GoValue → String) (b : MessageBuilder)
    (text : String) (imageUrls : List String) :
    ∃ parts, (b.UserWithImages text imageUrls).Build =
        b.Build ++ [⟨"user", GoValue.mapSlice parts, "", []⟩] ∧
      ExtractContent sprintv (some ⟨"user", GoValue.mapSlice parts, "", []⟩) =
        sprintv (GoValue.mapSlice parts) := by
  refine ⟨imageUrls.foldl
    (fun content url => content ++
      [[("type", GoValue.str "image_url"),
        ("image_url", GoValue.map [("url", GoValue.str url)])]])
    (if text ≠ "" then [[("type", GoValue.str "text"), ("text", GoValue.str text)]] else []),
    ?_, rfl⟩
  simp only [MessageBuilder.UserWithImages, MessageBuilder.Build, append_elems]

/-- C23 at the message that `UserWithImages` adds for the text `hello` and one image URL:
`ExtractContent` returns the default text of the whole content, maps and image part
included, and not `[hello]`. -/
theorem extractContent_userWithImages (fmtFloat : Float64 → String)
    (sprintv : GoValue → String) :
    imageMessage =
        some ⟨"user",
          GoValue.mapSlice
            [[("type", GoValue.str "text"), ("text", GoValue.str "hello")],
             [("type", GoValue.str "image_url"),
              ("image_url", GoValue.map [("url", GoValue.str "https://example.com/a.jpg")])]],
          "", []⟩ ∧
      ExtractContent sprintv imageMessage =
        sprintv (GoValue.mapSlice
          [[("type", GoValue.str "text"), ("text", GoValue.str "hello")],
           [("type", GoValue.str "image_url"),
            ("image_url", GoValue.map [("url", GoValue.str "https://example.com/a.jpg")])]]) ∧
      ExtractContent (sprintValue fmtFloat) imageMessage =
        "[map[text:hello type:text] " ++
          "map[image_url:map[url:https://example.com/a.jpg] type:image_url]]" ∧
      ExtractContent (sprintValue fmtFloat) imageMessage ≠ "[hello]" := by
  have heval : ExtractContent (sprintValue fmtFloat) imageMessage =
      "[map[text:hello type:text] " ++
        "map[image_url:map[url:https://example.com/a.jpg] type:image_url]]" := rfl
  refine ⟨rfl, rfl, heval, ?_⟩
  rw [heval]
  decide

/-! ## The request across a call -/

/-- C24, as stated, fails. A request whose stream flag is absent has the flag set to true
when `ChatCompletionStream` returns. -/
theorem request_unchanged_counterexample :
    (plainRequest []).Stream = none ∧
      ((sampleClient []).ChatCompletionStream (sampleEnv 200 "" ["data: [DONE]"])
          (plainRequest [])).2.Stream = some true :=
  ⟨rfl, rfl⟩

/-- C24, amended. `ChatCompletion` leaves every field of the request as it was.
`ChatCompletionStream` sets the stream flag to true and leaves every other field, the
`Extra` mapping included, as it was; a request whose flag was true already is unchanged. -/
theorem request_across_call {ρ : Type} (env : Env ρ) (c : Client) (req : ChatRequest) :
    (c.ChatCompletionWithRequest env req).2 = req ∧
      (c.ChatCompletionStream env req).2.Stream = some true ∧
      ((c.ChatCompletionStream env req).2.Model = req.Model ∧
        (c.ChatCompletionStream env req).2.Messages = req.Messages ∧
        (c.ChatCompletionStream env req).2.Temperature = req.Temperature ∧
        (c.ChatCompletionStream env req).2.TopP = req.TopP ∧
        (c.ChatCompletionStream env req).2.N = req.N ∧
        (c.ChatCompletionStream env req).2.Stop = req.Stop ∧
        (c.ChatCompletionStream env req).2.MaxTokens = req.MaxTokens ∧
        (c.ChatCompletionStream env req).2.Tools = req.Tools ∧
        (c.ChatCompletionStream env req).2.ToolChoice = req.ToolChoice ∧
        (c.ChatCompletionStream env req).2.Extra = req.Extra) ∧
      (req.Stream = some true → (c.ChatCompletionStream env req).2 = req) := by
  refine ⟨rfl, rfl, ⟨rfl, rfl, rfl, rfl, rfl, rfl, rfl, rfl, rfl, rfl⟩, ?_⟩
  intro hs
  cases req
  simp only [Client.ChatCompletionStream] at hs ⊢
  rw [hs]

/-- C24, amended, at a request built with the stream flag true and an `Extra` entry, which
`ChatCompletionStream` returns unchanged. -/
theorem request_across_call_witness :
    ({ plainRequest [("top_p", GoValue.str "0.9")] with Stream := some true } : ChatRequest).Stream
        = some true ∧
      ((sampleClient []).ChatCompletionStream (sampleEnv 200 "" ["data: [DONE]"])
          { plainRequest [("top_p", GoValue.str "0.9")] with Stream := some true }).2 =
        { plainRequest [("top_p", GoValue.str "0.9")] with Stream := some true } :=
  ⟨rfl,
    (request_across_call (sampleEnv 200 "" ["data: [DONE]"]) (sampleClient [])
      { plainRequest [("top_p", GoValue.str "0.9")] with Stream := some true }).2.2.2 rfl⟩

/-! ## The end marker and the streaming flag -/

/-- C25. `Recv` takes a `data: ` line for the end marker exactly when the payload after the
prefix is `[DONE]`: for every other payload the line is parsed as a fragment record, so
that the call returns the fragment, or the decode error, which is not `io.EOF`, when the
payload is not valid. -/
theorem recv_done_exact {ρ : Type} (u : Unmarshal) (rd : ReadCloser ρ) (err : GoError)
    (pre : List String) (p : String) (rest late : List String)
    (hpre : ∀ l ∈ pre, isDataLine l = false) :
    ((StreamReader.Recv u ⟨rd, ⟨pre ++ ("data: " ++ p) :: rest, err, late⟩⟩).1 =
        (none, some GoError.EOF) ↔ p = "[DONE]") ∧
      (p ≠ "[DONE]" →
        (StreamReader.Recv u ⟨rd, ⟨pre ++ ("data: " ++ p) :: rest, err, late⟩⟩).1 =
          match u p with
          | Except.error e => (none, some (decodeError e))
          | Except.ok response => (some response, none)) ∧
      (p ≠ "[DONE]" → ∀ e, u p = Except.error e →
        (StreamReader.Recv u ⟨rd, ⟨pre ++ ("data: " ++ p) :: rest, err, late⟩⟩).1 =
            (none, some (decodeError e)) ∧
          decodeError e ≠ GoError.EOF) := by
  have hloop : (StreamReader.Recv u ⟨rd, ⟨pre ++ ("data: " ++ p) :: rest, err, late⟩⟩).1 =
      (if p = "[DONE]" then ((none, some GoError.EOF), rest)
        else
          match u p with
          | Except.error e =>
            ((none, some (GoError.wrap "failed to unmarshal stream response: " e)), rest)
          | Except.ok response => ((some response, none), rest)).1 := by
    have hl : recvLoop u err (pre ++ ("data: " ++ p) :: rest) =
        recvLoop u err (("data: " ++ p) :: rest) := recvLoop_skip u err _ _ hpre
    rw [recvLoop_data] at hl
    by_cases hp : p = "[DONE]"
    · rw [if_pos hp] at hl
      rw [recv_of_some u rd err _ late _ _ hl, if_pos hp]
    · rw [if_neg hp] at hl
      rw [if_neg hp]
      cases hu : u p with
      | error e =>
        rw [hu] at hl
        rw [recv_of_some u rd err _ late _ _ hl]
      | ok response =>
        rw [hu] at hl
        rw [recv_of_some u rd err _ late _ _ hl]
  have hother : p ≠ "[DONE]" →
      (StreamReader.Recv u ⟨rd, ⟨pre ++ ("data: " ++ p) :: rest, err, late⟩⟩).1 =
        match u p with
        | Except.error e => (none, some (decodeError e))
        | Except.ok response => (some response, none) := by
    intro hp
    rw [hloop]
    simp only [hp, if_false]
    cases u p <;> rfl
  refine ⟨⟨?_, ?_⟩, hother, ?_⟩
  · intro hres
    by_contra hp
    rw [hother hp] at hres
    cases hu : u p with
    | error e => simp [hu, decodeError] at hres
    | ok response => simp [hu] at hres
  · intro hp
    rw [hloop]
    simp [hp]
  · intro hp e he
    refine ⟨?_, by simp [decodeError]⟩
    rw [hother hp, he]

/-- C25 at the payloads `[DONE] `, ` [DONE]` and `[done]`, none of which ends the stream:
each fails with the decode error. -/
theorem recv_done_exact_witness :
    (∀ l ∈ [""], isDataLine l = false) ∧
      "[DONE] " ≠ "[DONE]" ∧ " [DONE]" ≠ "[DONE]" ∧ "[done]" ≠ "[DONE]" ∧
      (StreamReader.Recv sampleUnmarshal
          ⟨bodyReader, ⟨[""] ++ ("data: " ++ "[DONE] ") :: [], GoError.EOF, []⟩⟩).1 =
        (none, some (decodeError (GoError.other "invalid character"))) ∧
      (StreamReader.Recv sampleUnmarshal
          ⟨bodyReader, ⟨[""] ++ ("data: " ++ " [DONE]") :: [], GoError.EOF, []⟩⟩).1 =
        (none, some (decodeError (GoError.other "invalid character"))) ∧
      (StreamReader.Recv sampleUnmarshal
          ⟨bodyReader, ⟨[""] ++ ("data: " ++ "[done]") :: [], GoError.EOF, []⟩⟩).1 =
        (none, some (decodeError (GoError.other "invalid character"))) :=
  ⟨by decide, by decide, by decide, by decide,
    ((recv_done_exact sampleUnmarshal bodyReader GoError.EOF [""] "[DONE] " [] []
      (by decide)).2.2 (by decide) _ rfl).1,
    ((recv_done_exact sampleUnmarshal bodyReader GoError.EOF [""] " [DONE]" [] []
      (by decide)).2.2 (by decide) _ rfl).1,
    ((recv_done_exact sampleUnmarshal bodyReader GoError.EOF [""] "[done]" [] []
      (by decide)).2.2 (by decide) _ rfl).1⟩

/-- C26. `ChatCompletion` on a request whose stream flag is present and true returns no
response and an error, with no network event and whatever the transport would do; on a
request whose flag is absent or false its result is that of `doChatRequest` on the
request. -/
theorem chatCompletion_stream_flag {ρ : Type} (env : Env ρ) (c : Client)
    (req : ChatRequest) :
    (req.Stream = some true →
        c.ChatCompletion env req =
          ((none, some (GoError.other "use ChatCompletionStream for streaming requests")),
            [])) ∧
      (req.Stream = none ∨ req.Stream = some false →
        c.ChatCompletion env req = c.doChatRequest env req) := by
  constructor
  · intro hs
    simp [Client.ChatCompletion, hs]
  · intro hs
    rcases hs with hs | hs <;> simp [Client.ChatCompletion, hs]

/-- C26 at a request with the stream flag true, which is refused without a request being
sent, and at requests with the flag absent and false, which go to `doChatRequest`. -/
theorem chatCompletion_stream_flag_witness :
    ({ plainRequest [] with Stream := some true } : ChatRequest).Stream = some true ∧
      (sampleClient []).ChatCompletion (sampleEnv 200 "" [])
          { plainRequest [] with Stream := some true } =
        ((none, some (GoError.other "use ChatCompletionStream for streaming requests")), []) ∧
      ((plainRequest []).Stream = none ∨ (plainRequest []).Stream = some false) ∧
      (sampleClient []).ChatCompletion (sampleEnv 200 "" []) (plainRequest []) =
        (sampleClient []).doChatRequest (sampleEnv 200 "" []) (plainRequest []) ∧
      (sentRequests ((sampleClient []).ChatCompletion (sampleEnv 200 "" [])
          { plainRequest [] with Stream := some false }).2).length = 1 :=
  ⟨rfl,
    (chatCompletion_stream_flag (sampleEnv 200 "" []) (sampleClient [])
      { plainRequest [] with Stream := some true }).1 rfl,
    Or.inl rfl,
    (chatCompletion_stream_flag (sampleEnv 200 "" []) (sampleClient [])
      (plainRequest [])).2 (Or.inl rfl),
    rfl⟩

end ai
